import Mathlib

/-
Verification of the schedule ingestion-and-synchronization pipeline:
a shallow embedding of `src/parser/nika_parser.py` (normalizers) and
`src/services/updater.py` (change detection, database synchronization,
notification fan-out), with theorems settling the specification claims.

Modelling conventions:
* JSON values produced by `json.loads` are modelled by the inductive `JVal`.
  Objects are entry lists in insertion order (real Python dicts have
  no duplicate keys; where a proof needs this, it is an explicit
  `nodupKeys` hypothesis).  JSON numbers are modelled as integers; no
  claim depends on float values.
* Dynamic-typing errors of the Python code (AttributeError, TypeError,
  IndexError, ...) are modelled by `Except PyErr`; the message records
  the kind of error raised at that program point.
* `str.isdigit` and the regex `\d` are modelled over ASCII digits.
-/

inductive JVal where
  | null : JVal
  | bool (b : Bool) : JVal
  | num (n : Int) : JVal
  | str (s : String) : JVal
  | arr (elems : List JVal) : JVal
  | obj (entries : List (String × JVal)) : JVal

abbrev PyErr := String

deriving instance DecidableEq for Except

/-- Python truthiness of a json-loaded value (`if not x`). -/
def JVal.falsy : JVal → Bool
  | .null => true
  | .bool b => !b
  | .num n => n == 0
  | .str s => s == ""
  | .arr xs => xs.isEmpty
  | .obj kvs => kvs.isEmpty

def JVal.truthy (v : JVal) : Bool := !v.falsy

/-- A single-quote character, as used by Python `repr` of strings. -/
def squote : String := String.mk [Char.ofNat 39]

mutual

/-- Python `repr` of a json-loaded value (used by `str` on containers).
No claim depends on the exact rendering of containers. -/
def pyRepr : JVal → String
  | .null => "None"
  | .bool true => "True"
  | .bool false => "False"
  | .num n => toString n
  | .str s => squote ++ s ++ squote
  | .arr xs => "[" ++ pyReprList xs ++ "]"
  | .obj kvs => "\x7b" ++ pyReprEntries kvs ++ "\x7d"

def pyReprList : List JVal → String
  | [] => ""
  | [x] => pyRepr x
  | x :: y :: xs => pyRepr x ++ ", " ++ pyReprList (y :: xs)

def pyReprEntries : List (String × JVal) → String
  | [] => ""
  | [(k, v)] => squote ++ k ++ squote ++ ": " ++ pyRepr v
  | (k, v) :: e :: kvs => squote ++ k ++ squote ++ ": " ++ pyRepr v ++ ", " ++ pyReprEntries (e :: kvs)

end

/-- Python `str()` of a json-loaded value. -/
def pyStr : JVal → String
  | .str s => s
  | v => pyRepr v

/-- Value of the decimal digit list (`int` applied to a digit string). -/
def digitsToNat (l : List Char) : Nat :=
  l.foldl (fun a c => a * 10 + (c.toNat - 48)) 0

/-- Python `str.isdigit`, over ASCII digits. -/
def pyIsDigit (s : String) : Bool :=
  !s.isEmpty && s.toList.all Char.isDigit

/-- `re.search(r'\d+', s)`: the first maximal run of decimal digits of `s`,
if any. -/
def firstDigitRun (s : String) : Option (List Char) :=
  let run := (s.toList.dropWhile (fun c => !c.isDigit)).takeWhile Char.isDigit
  if run.isEmpty then none else some run

/-- Grade extraction in `normalize_classes`: first digit run of the
name, parsed as an integer, else 0. -/
def gradeOf (s : String) : Nat :=
  match firstDigitRun s with
  | none => 0
  | some run => digitsToNat run

/-- Python `d.items()`: raises AttributeError unless `d` is a dict. -/
def pyItems : JVal → Except PyErr (List (String × JVal))
  | .obj kvs => .ok kvs
  | _ => .error "AttributeError: items"

/-- Python `list(d.keys())`: raises AttributeError unless `d` is a dict. -/
def pyKeys : JVal → Except PyErr (List String)
  | .obj kvs => .ok (kvs.map Prod.fst)
  | _ => .error "AttributeError: keys"

/-- Python `d[k]` on a dict value: KeyError when absent, AttributeError
(modelled as TypeError-like subscript failure) when `d` is not a dict. -/
def pySubscript (d : JVal) (k : String) : Except PyErr JVal :=
  match d with
  | .obj kvs =>
    match List.lookup k kvs with
    | some v => .ok v
    | none => .error "KeyError"
  | _ => .error "TypeError: not subscriptable"

/-- Python `d.get(k, dflt)`: raises AttributeError unless `d` is a dict. -/
def pyGet (d : JVal) (k : String) (dflt : JVal) : Except PyErr JVal :=
  match d with
  | .obj kvs => .ok ((List.lookup k kvs).getD dflt)
  | _ => .error "AttributeError: get"

/-- Python `lookup.get(i, i)` where `i` is itself a json value:
AttributeError when `lookup` is not a dict, TypeError when `i` is
unhashable (a list or dict); a hashable non-string `i` misses every
string key and yields the default `i`. -/
def pyLookupRef (lookup : JVal) (i : JVal) : Except PyErr JVal :=
  match lookup with
  | .obj kvs =>
    match i with
    | .arr _ => .error "TypeError: unhashable type: list"
    | .obj _ => .error "TypeError: unhashable type: dict"
    | .str s => .ok ((List.lookup s kvs).getD i)
    | v => .ok v
  | _ => .error "AttributeError: get"

/-- Python iteration `for i in ids`: lists yield elements, strings yield
their characters as 1-character strings, dicts yield their keys;
anything else raises TypeError. -/
def pyIterElems : JVal → Except PyErr (List JVal)
  | .arr xs => .ok xs
  | .str s => .ok (s.toList.map (fun c => .str (String.mk [c])))
  | .obj kvs => .ok (kvs.map (fun kv => .str kv.1))
  | _ => .error "TypeError: not iterable"

structure ClassRec where
  id : String
  name : String
  grade : Nat
deriving DecidableEq

structure TeacherRec where
  id : String
  name : String
deriving DecidableEq

structure LessonRaw where
  class_id : String
  day : Int
  number : Nat
  subject : String
  teacher : String
  room : String
deriving DecidableEq

structure SubRecord where
  class_id : String
  date : String
  lesson_number : Nat
  subject_name : Option String
  teacher_name : Option String
  room_number : Option String
  is_cancelled : Bool
deriving DecidableEq

/-- `NikaParser.normalize_classes`: for each entry of the `CLASSES`
section emit id, display name and extracted grade; a missing section
yields the empty list.  (The source's `if not cname or cname == "0"`
branch is a no-op `pass` and filters nothing.) -/
def normalize_classes (raw : List (String × JVal)) : Except PyErr (List ClassRec) :=
  match List.lookup "CLASSES" raw with
  | none => .ok []
  | some cm => do
    let kvs ← pyItems cm
    .ok (kvs.map (fun kv => { id := kv.1, name := pyStr kv.2, grade := gradeOf (pyStr kv.2) }))

/-- `NikaParser.normalize_teachers`: entries of the `TEACHERS` section,
skipping falsy names; a missing section yields the empty list. -/
def normalize_teachers (raw : List (String × JVal)) : Except PyErr (List TeacherRec) :=
  match List.lookup "TEACHERS" raw with
  | none => .ok []
  | some tm => do
    let kvs ← pyItems tm
    .ok (kvs.filterMap (fun kv =>
      if kv.2.truthy then some { id := kv.1, name := pyStr kv.2 } else none))

/-- One step of the join comprehension
`[str(lookup.get(i, i)) for i in ids if i]`: falsy ids are skipped,
truthy ids resolve through the table with the raw id as fallback. -/
def nameStep (lookup : JVal) (acc : List String) (i : JVal) :
    Except PyErr (List String) := do
  if i.truthy then
    let v ← pyLookupRef lookup i
    pure (acc ++ [pyStr v])
  else
    pure acc

/-- The schedule-side `get_names` helper:
`", ".join([str(lookup.get(i, i)) for i in ids if i])`. -/
def get_names (ids lookup : JVal) : Except PyErr String := do
  let elems ← pyIterElems ids
  let names ← elems.foldlM (nameStep lookup) ([] : List String)
  pure (String.intercalate ", " names)

/-- Body of the slot loop of `normalize_schedule`: skip non-digit slot
keys, decode day and lesson number, resolve the `s`/`t`/`r` reference
arrays through the lookup tables. -/
def processScheduleSlot (subjects teachers rooms : JVal) (class_id slot_key : String)
    (slot_data : JVal) : Except PyErr (Option LessonRaw) :=
  if !pyIsDigit slot_key then .ok none
  else do
    let val := digitsToNat slot_key.toList
    let sub_ids ← pyGet slot_data "s" (.arr [])
    let teach_ids ← pyGet slot_data "t" (.arr [])
    let room_ids ← pyGet slot_data "r" (.arr [])
    let subj_name ← get_names sub_ids subjects
    let teach_name ← get_names teach_ids teachers
    let room_name ← get_names room_ids rooms
    .ok (some {
      class_id := class_id
      day := (val / 100 : Nat) - 1
      number := val % 100
      subject := subj_name
      teacher := teach_name
      room := room_name })

/-- `NikaParser.normalize_schedule`: flatten the first period of
`CLASS_SCHEDULE` into lesson records; missing section or falsy section
value yields the empty list; non-dict per-class schedules are skipped. -/
def normalize_schedule (raw : List (String × JVal)) : Except PyErr (List LessonRaw) :=
  match List.lookup "CLASS_SCHEDULE" raw with
  | none => .ok []
  | some sp =>
    let subjects := (List.lookup "SUBJECTS" raw).getD (.obj [])
    let teachers := (List.lookup "TEACHERS" raw).getD (.obj [])
    let rooms := (List.lookup "ROOMS" raw).getD (.obj [])
    if sp.falsy then .ok []
    else do
      let keys ← pyKeys sp
      match keys with
      | [] => .error "IndexError: list index out of range"
      | period_key :: _ => do
        let full_schedule ← pySubscript sp period_key
        let entries ← pyItems full_schedule
        entries.foldlM (fun acc kv =>
          match kv.2 with
          | .obj slots =>
            slots.foldlM (fun acc2 slot => do
                let r ← processScheduleSlot subjects teachers rooms kv.1 slot.1 slot.2
                pure (match r with
                  | some l => acc2 ++ [l]
                  | none => acc2)) acc
          | _ => pure acc) ([] : List LessonRaw)

/-- Python `sub_ids == "F"`: only a string compares equal to `"F"`. -/
def isTokenF : JVal → Bool
  | .str s => s == "F"
  | _ => false

/-- The substitution-side `get_names` helper (a duplicate of the
schedule one in the source, with an `isinstance(ids, list)` guard):
joins over a list, and falls back to `str(lookup.get(ids, ids))` for a
non-list value. -/
def get_names_subs (ids lookup : JVal) : Except PyErr String :=
  match ids with
  | .arr xs => do
    let names ← xs.foldlM (nameStep lookup) ([] : List String)
    pure (String.intercalate ", " names)
  | v => do
    let r ← pyLookupRef lookup v
    pure (pyStr r)

/-- Body of the slot loop of `normalize_substitutions`: skip non-digit
slot keys; the cancellation sentinel `"F"` in the `s` field takes
precedence and nulls the three names, otherwise references resolve as
for lessons. -/
def processSubSlot (subjects teachers rooms : JVal) (class_id date slot_key : String)
    (slot_data : JVal) : Except PyErr (Option SubRecord) :=
  if !pyIsDigit slot_key then .ok none
  else do
    let lesson_num := digitsToNat slot_key.toList
    let sub_ids ← pyGet slot_data "s" (.arr [])
    if isTokenF sub_ids then
      .ok (some {
        class_id := class_id, date := date, lesson_number := lesson_num
        subject_name := none, teacher_name := none, room_number := none
        is_cancelled := true })
    else do
      let teach_ids ← pyGet slot_data "t" (.arr [])
      let room_ids ← pyGet slot_data "r" (.arr [])
      let subj_name ← get_names_subs sub_ids subjects
      let teach_name ← get_names_subs teach_ids teachers
      let room_name ← get_names_subs room_ids rooms
      .ok (some {
        class_id := class_id, date := date, lesson_number := lesson_num
        subject_name := some subj_name, teacher_name := some teach_name
        room_number := some room_name, is_cancelled := false })

/-- `NikaParser.normalize_substitutions`: flatten `CLASS_EXCHANGE`
(class → date → slot → data) into substitution records; a missing
section yields the empty list; non-dict date maps are skipped (but the
section itself and each date's slot map are accessed as dicts). -/
def normalize_substitutions (raw : List (String × JVal)) : Except PyErr (List SubRecord) :=
  match List.lookup "CLASS_EXCHANGE" raw with
  | none => .ok []
  | some ex => do
    let subjects := (List.lookup "SUBJECTS" raw).getD (.obj [])
    let teachers := (List.lookup "TEACHERS" raw).getD (.obj [])
    let rooms := (List.lookup "ROOMS" raw).getD (.obj [])
    let classes ← pyItems ex
    classes.foldlM (fun acc ckv =>
      match ckv.2 with
      | .obj dates =>
        dates.foldlM (fun acc2 dkv => do
          let slots ← pyItems dkv.2
          slots.foldlM (fun acc3 skv => do
              let r ← processSubSlot subjects teachers rooms ckv.1 dkv.1 skv.1 skv.2
              pure (match r with
                | some sub => acc3 ++ [sub]
                | none => acc3)) acc2) acc
      | _ => pure acc) ([] : List SubRecord)

/-!
### Change detection (`run_update_cycle`, lines 42-48)

`content_to_hash` selects exactly the `CLASSES`, `CLASS_SCHEDULE` and
`TEACHERS` sections (`dict.get`, so an absent section contributes JSON
`null`), `json.dumps(..., sort_keys=True)` serializes with
deterministically sorted keys, and `hashlib.md5` hashes the resulting
string.  We model the fingerprint by the canonical form of the hashed
content: all maps recursively key-sorted (`canon`).  `json.dumps` with
sorted keys is injective on json values up to key order, and the hash
is modelled as injective (the spec explicitly does not require
collision resistance, only stability and sensitivity).  Key order is
Python's: lexicographic on code points.
-/

def charListLe : List Char → List Char → Bool
  | [], _ => true
  | _ :: _, [] => false
  | a :: as, b :: bs =>
    if a < b then true
    else if b < a then false
    else charListLe as bs

def keyLe (a b : String) : Bool := charListLe a.toList b.toList

theorem charListLe_total (a b : List Char) : charListLe a b = true ∨ charListLe b a = true := by
  induction a generalizing b with
  | nil => exact Or.inl rfl
  | cons x xs ih =>
    cases b with
    | nil => exact Or.inr rfl
    | cons y ys =>
      rcases lt_trichotomy x y with h | h | h
      · left; simp [charListLe, h]
      · subst h
        rcases ih ys with h2 | h2 <;> simp [charListLe, lt_irrefl, h2]
      · right; simp [charListLe, h]

theorem charListLe_trans {a b c : List Char} (h1 : charListLe a b = true)
    (h2 : charListLe b c = true) : charListLe a c = true := by
  induction a generalizing b c with
  | nil => rfl
  | cons x xs ih =>
    cases b with
    | nil => simp [charListLe] at h1
    | cons y ys =>
      cases c with
      | nil => simp [charListLe] at h2
      | cons z zs =>
        simp only [charListLe] at h1 h2 ⊢
        rcases lt_trichotomy x y with hxy | hxy | hxy
        · rcases lt_trichotomy y z with hyz | hyz | hyz
          · simp [lt_trans hxy hyz]
          · subst hyz; simp [hxy]
          · simp [hyz, not_lt_of_gt hyz] at h2
        · subst hxy
          rcases lt_trichotomy x z with hyz | hyz | hyz
          · simp [hyz]
          · subst hyz
            simp only [lt_irrefl, if_false] at h1 h2 ⊢
            exact ih h1 h2
          · simp [hyz, not_lt_of_gt hyz] at h2
        · simp [hxy, not_lt_of_gt hxy] at h1

theorem charListLe_antisymm {a b : List Char} (h1 : charListLe a b = true)
    (h2 : charListLe b a = true) : a = b := by
  induction a generalizing b with
  | nil =>
    cases b with
    | nil => rfl
    | cons y ys => simp [charListLe] at h2
  | cons x xs ih =>
    cases b with
    | nil => simp [charListLe] at h1
    | cons y ys =>
      simp only [charListLe] at h1 h2
      rcases lt_trichotomy x y with hxy | hxy | hxy
      · simp [hxy, not_lt_of_gt hxy] at h2
      · subst hxy
        simp only [lt_irrefl, if_false] at h1 h2
        exact congrArg (x :: ·) (ih h1 h2)
      · simp [hxy, not_lt_of_gt hxy] at h1

theorem keyLe_total (a b : String) : keyLe a b = true ∨ keyLe b a = true :=
  charListLe_total a.toList b.toList

theorem keyLe_trans {a b c : String} (h1 : keyLe a b = true) (h2 : keyLe b c = true) :
    keyLe a c = true :=
  charListLe_trans h1 h2

theorem keyLe_antisymm {a b : String} (h1 : keyLe a b = true) (h2 : keyLe b a = true) :
    a = b :=
  String.ext (charListLe_antisymm h1 h2)

/-- Order on map entries used by the sorted-keys serialization. -/
def entryLe (a b : String × JVal) : Prop := keyLe a.1 b.1 = true

instance : DecidableRel entryLe := fun a b => inferInstanceAs (Decidable (_ = true))

instance : IsTotal (String × JVal) entryLe := ⟨fun a b => keyLe_total a.1 b.1⟩

instance : IsTrans (String × JVal) entryLe := ⟨fun _ _ _ => keyLe_trans⟩

/-- Strict variant (distinct keys), used to see that sorting a
permutation of a duplicate-free entry list is order-determined. -/
def entryLt (a b : String × JVal) : Prop := entryLe a b ∧ a.1 ≠ b.1

instance : IsAntisymm (String × JVal) entryLt :=
  ⟨fun a b h1 h2 => absurd (keyLe_antisymm h1.1 h2.1) h1.2⟩

/-- `sort_keys=True`: map entries in ascending key order. -/
def sortEntries (kvs : List (String × JVal)) : List (String × JVal) :=
  List.insertionSort entryLe kvs

theorem sortEntries_perm (l : List (String × JVal)) : (sortEntries l).Perm l :=
  List.perm_insertionSort entryLe l

theorem sortEntries_sorted (l : List (String × JVal)) : List.Sorted entryLe (sortEntries l) :=
  List.sorted_insertionSort entryLe l

theorem sortEntries_eq_of_perm {l₁ l₂ : List (String × JVal)} (h : l₁.Perm l₂)
    (nd : (l₁.map Prod.fst).Nodup) : sortEntries l₁ = sortEntries l₂ := by
  have nd₂ : (l₂.map Prod.fst).Nodup := ((h.map Prod.fst).nodup_iff).mp nd
  have hne : ∀ {la : List (String × JVal)}, (la.map Prod.fst).Nodup →
      List.Pairwise (fun a b : String × JVal => a.1 ≠ b.1) la := by
    intro la hla
    exact List.pairwise_map.mp hla
  have hsym : ∀ {x y : String × JVal}, x.1 ≠ y.1 → y.1 ≠ x.1 := fun h => Ne.symm h
  have hlt : ∀ (la : List (String × JVal)), (la.map Prod.fst).Nodup →
      List.Sorted entryLt (sortEntries la) := by
    intro la hla
    have h1 : List.Pairwise (fun a b : String × JVal => a.1 ≠ b.1) (sortEntries la) :=
      ((sortEntries_perm la).pairwise_iff hsym).mpr (hne hla)
    exact (sortEntries_sorted la).and h1
  exact List.eq_of_perm_of_sorted
    ((sortEntries_perm l₁).trans (h.trans (sortEntries_perm l₂).symm))
    (hlt l₁ nd) (hlt l₂ nd₂)

mutual

/-- Canonical (recursively key-sorted) form of a json value: the model
of its `json.dumps(..., sort_keys=True)` serialization. -/
def canon : JVal → JVal
  | .null => .null
  | .bool b => .bool b
  | .num n => .num n
  | .str s => .str s
  | .arr xs => .arr (canonList xs)
  | .obj kvs => .obj (sortEntries (canonEntries kvs))
termination_by structural v => v

def canonList : List JVal → List JVal
  | [] => []
  | x :: xs => canon x :: canonList xs
termination_by structural l => l

def canonEntries : List (String × JVal) → List (String × JVal)
  | [] => []
  | kv :: kvs => (kv.1, canon kv.2) :: canonEntries kvs
termination_by structural l => l

end

/-- Duplicate-freedom of a key list (real Python dicts always satisfy it). -/
def nodupKeys : List String → Bool
  | [] => true
  | k :: ks => !(ks.contains k) && nodupKeys ks

mutual

/-- Well-formedness of a json value as a `json.loads` result: every
map, at every depth, has duplicate-free keys. -/
def wfB : JVal → Bool
  | .null => true
  | .bool _ => true
  | .num _ => true
  | .str _ => true
  | .arr xs => wfBList xs
  | .obj kvs => nodupKeys (kvs.map Prod.fst) && wfBEntries kvs
termination_by structural v => v

def wfBList : List JVal → Bool
  | [] => true
  | x :: xs => wfB x && wfBList xs
termination_by structural l => l

def wfBEntries : List (String × JVal) → Bool
  | [] => true
  | kv :: kvs => wfB kv.2 && wfBEntries kvs
termination_by structural l => l

end

theorem canonList_eq_map (xs : List JVal) : canonList xs = xs.map canon := by
  induction xs with
  | nil => rfl
  | cons x xs ih => simp [canonList, ih]

theorem canonEntries_eq_map (kvs : List (String × JVal)) :
    canonEntries kvs = kvs.map (fun kv => (kv.1, canon kv.2)) := by
  induction kvs with
  | nil => rfl
  | cons kv kvs ih => simp [canonEntries, ih]

theorem canon_arr (xs : List JVal) : canon (.arr xs) = .arr (xs.map canon) := by
  simp [canon, canonList_eq_map]

theorem canon_obj (kvs : List (String × JVal)) :
    canon (.obj kvs) = .obj (sortEntries (kvs.map (fun kv => (kv.1, canon kv.2)))) := by
  simp [canon, canonEntries_eq_map]

theorem wfBList_eq_all (xs : List JVal) : wfBList xs = xs.all wfB := by
  induction xs with
  | nil => rfl
  | cons x xs ih => simp [wfBList, ih]

theorem wfBEntries_eq_all (kvs : List (String × JVal)) :
    wfBEntries kvs = kvs.all (fun kv => wfB kv.2) := by
  induction kvs with
  | nil => rfl
  | cons kv kvs ih => simp [wfBEntries, ih]

theorem nodupKeys_iff (ks : List String) : nodupKeys ks = true ↔ ks.Nodup := by
  induction ks with
  | nil => simp [nodupKeys]
  | cons k ks ih => simp [nodupKeys, ih, List.elem_iff]

theorem wfB_arr (xs : List JVal) : wfB (.arr xs) = xs.all wfB := by
  simp [wfB, wfBList_eq_all]

theorem wfB_obj (kvs : List (String × JVal)) :
    wfB (.obj kvs) = (nodupKeys (kvs.map Prod.fst) && kvs.all (fun kv => wfB kv.2)) := by
  simp [wfB, wfBEntries_eq_all]

theorem lookup_mem {k : String} {v : JVal} : ∀ {l : List (String × JVal)},
    List.lookup k l = some v → (k, v) ∈ l := by
  intro l h
  induction l with
  | nil => simp [List.lookup] at h
  | cons kv l ih =>
    obtain ⟨a, b⟩ := kv
    rw [List.lookup_cons] at h
    by_cases hk : k = a
    · subst hk
      simp at h
      subst h
      exact List.mem_cons_self _ _
    · simp [beq_false_of_ne hk] at h
      exact List.mem_cons_of_mem _ (ih h)

theorem lookup_eq_none_iff {k : String} : ∀ {l : List (String × JVal)},
    List.lookup k l = none ↔ k ∉ l.map Prod.fst := by
  intro l
  induction l with
  | nil => simp
  | cons kv l ih =>
    obtain ⟨a, b⟩ := kv
    rw [List.lookup_cons]
    by_cases hk : k = a
    · subst hk; simp
    · simp [beq_false_of_ne hk, ih, hk]

theorem lookup_isSome_of_mem_keys {k : String} {l : List (String × JVal)}
    (h : k ∈ l.map Prod.fst) : ∃ v, List.lookup k l = some v := by
  cases hv : List.lookup k l with
  | none => exact absurd h (lookup_eq_none_iff.mp hv)
  | some v => exact ⟨v, rfl⟩

theorem mem_lookup {k : String} {v : JVal} : ∀ {l : List (String × JVal)},
    (l.map Prod.fst).Nodup → (k, v) ∈ l → List.lookup k l = some v := by
  intro l nd h
  induction l with
  | nil => simp at h
  | cons kv l ih =>
    obtain ⟨a, b⟩ := kv
    simp only [List.map_cons, List.nodup_cons] at nd
    rcases List.mem_cons.mp h with h1 | h1
    · obtain ⟨h2, h3⟩ := Prod.mk.injEq .. ▸ h1
      subst h2; subst h3
      simp [List.lookup_cons]
    · have hk : k ≠ a := by
        intro hk
        subst hk
        exact nd.1 (List.mem_map.mpr ⟨(k, v), h1, rfl⟩)
      rw [List.lookup_cons]
      simp only [beq_false_of_ne hk]
      exact ih nd.2 h1

theorem lookup_perm {l₁ l₂ : List (String × JVal)} (h : l₁.Perm l₂)
    (nd : (l₁.map Prod.fst).Nodup) (k : String) : List.lookup k l₁ = List.lookup k l₂ := by
  have nd₂ : (l₂.map Prod.fst).Nodup := ((h.map Prod.fst).nodup_iff).mp nd
  cases hv : List.lookup k l₁ with
  | none =>
    cases hw : List.lookup k l₂ with
    | none => rfl
    | some w =>
      exact absurd (h.mem_iff.mpr (lookup_mem hw))
        (fun hm => (lookup_eq_none_iff.mp hv) (List.mem_map.mpr ⟨(k, w), hm, rfl⟩))
  | some v =>
    exact (mem_lookup nd₂ (h.mem_iff.mp (lookup_mem hv))).symm

theorem jval_sizeOf_pos (a : JVal) : 0 < sizeOf a := by
  cases a <;> simp

theorem sizeOf_elem_lt {xs : List JVal} {x : JVal} (h : x ∈ xs) :
    sizeOf x < sizeOf (JVal.arr xs) := by
  have := List.sizeOf_lt_of_mem h
  simp only [JVal.arr.sizeOf_spec]
  omega

theorem sizeOf_val_lt {kvs : List (String × JVal)} {kv : String × JVal} (h : kv ∈ kvs) :
    sizeOf kv.2 < sizeOf (JVal.obj kvs) := by
  have h1 := List.sizeOf_lt_of_mem h
  have h2 : sizeOf kv.2 ≤ sizeOf kv := by
    obtain ⟨a, b⟩ := kv
    simp
  simp only [JVal.obj.sizeOf_spec]
  omega

/-- Equality of json values up to key-order permutation of the maps
they contain, at every depth: the sense in which two raw snapshots
carry the same data.  Arrays are related pointwise (`arrNil`/`arrCons`);
maps are related by permuting entries (`objPerm`) and relating entries
with equal keys and related values (`objNil`/`objCons`). -/
inductive JEquiv : JVal → JVal → Prop where
  | null : JEquiv .null .null
  | bool (b : Bool) : JEquiv (.bool b) (.bool b)
  | num (n : Int) : JEquiv (.num n) (.num n)
  | str (s : String) : JEquiv (.str s) (.str s)
  | arrNil : JEquiv (.arr []) (.arr [])
  | arrCons {x y : JVal} {xs ys : List JVal} :
      JEquiv x y → JEquiv (.arr xs) (.arr ys) → JEquiv (.arr (x :: xs)) (.arr (y :: ys))
  | objNil : JEquiv (.obj []) (.obj [])
  | objCons (k : String) {v w : JVal} {kvs lws : List (String × JVal)} :
      JEquiv v w → JEquiv (.obj kvs) (.obj lws) →
      JEquiv (.obj ((k, v) :: kvs)) (.obj ((k, w) :: lws))
  | objPerm {kvs₁ mid kvs₂ : List (String × JVal)} :
      kvs₁.Perm mid → JEquiv (.obj mid) (.obj kvs₂) → JEquiv (.obj kvs₁) (.obj kvs₂)

theorem map_ce_fst (l : List (String × JVal)) :
    (l.map (fun kv => (kv.1, canon kv.2))).map Prod.fst = l.map Prod.fst := by
  rw [List.map_map]
  rfl

theorem wfB_obj_iff {kvs : List (String × JVal)} :
    wfB (.obj kvs) = true ↔ (kvs.map Prod.fst).Nodup ∧ ∀ kv ∈ kvs, wfB kv.2 = true := by
  rw [wfB_obj]
  simp [nodupKeys_iff, List.all_eq_true]

theorem wfB_arr_iff {xs : List JVal} :
    wfB (.arr xs) = true ↔ ∀ x ∈ xs, wfB x = true := by
  rw [wfB_arr]
  simp [List.all_eq_true]

theorem wfB_obj_perm {kvs mid : List (String × JVal)} (h : kvs.Perm mid)
    (hw : wfB (.obj kvs) = true) : wfB (.obj mid) = true := by
  rw [wfB_obj_iff] at hw ⊢
  exact ⟨((h.map Prod.fst).nodup_iff).mp hw.1, fun kv hm => hw.2 kv (h.mem_iff.mpr hm)⟩

/-- `canon` respects `JEquiv` (on well-formed values): permuting map
entries anywhere does not change the canonical form. -/
theorem canon_eq_of_jequiv {a b : JVal} (heq : JEquiv a b) (hw : wfB a = true) :
    canon a = canon b := by
  induction heq with
  | null => rfl
  | bool b => rfl
  | num n => rfl
  | str s => rfl
  | arrNil => rfl
  | objNil => rfl
  | arrCons hx hxs ihx ihxs =>
    rename_i x y xs ys
    have hw' := wfB_arr_iff.mp hw
    have h1 : canon x = canon y := ihx (hw' x (List.mem_cons_self x xs))
    have h2 := ihxs (wfB_arr_iff.mpr (fun z hz => hw' z (List.mem_cons_of_mem x hz)))
    rw [canon_arr, canon_arr] at h2 ⊢
    simp only [List.map_cons]
    rw [JVal.arr.injEq] at h2
    rw [h1, h2]
  | objCons k hv hkvs ihv ihkvs =>
    rename_i v w kvs lws
    have hw' := wfB_obj_iff.mp hw
    have h1 : canon v = canon w := ihv (hw'.2 (k, v) (List.mem_cons_self _ kvs))
    have htail : wfB (.obj kvs) = true := by
      rw [wfB_obj_iff]
      refine ⟨?_, fun kv hm => hw'.2 kv (List.mem_cons_of_mem _ hm)⟩
      have := hw'.1
      simp only [List.map_cons, List.nodup_cons] at this
      exact this.2
    have h2 := ihkvs htail
    rw [canon_obj, canon_obj] at h2 ⊢
    rw [JVal.obj.injEq] at h2
    simp only [List.map_cons]
    unfold sortEntries
    unfold sortEntries at h2
    simp only [List.insertionSort]
    rw [h1, h2]
  | objPerm hperm hmid ih =>
    rename_i kvs₁ mid kvs₂
    have hwmid := wfB_obj_perm hperm hw
    have h1 : canon (.obj kvs₁) = canon (.obj mid) := by
      rw [canon_obj, canon_obj]
      rw [sortEntries_eq_of_perm (hperm.map _) (by rw [map_ce_fst]; exact (wfB_obj_iff.mp hw).1)]
    exact h1.trans (ih hwmid)

/-- Pointwise-related entry lists give `JEquiv` maps. -/
theorem jequiv_obj_pointwise (f : String × JVal → JVal) :
    ∀ (l : List (String × JVal)), (∀ kv ∈ l, JEquiv (f kv) kv.2) →
    JEquiv (.obj (l.map (fun kv => (kv.1, f kv)))) (.obj l) := by
  intro l
  induction l with
  | nil => intro _; exact .objNil
  | cons kv l ih =>
    intro h
    obtain ⟨k, w⟩ := kv
    exact .objCons k (h (k, w) (List.mem_cons_self _ l))
      (ih (fun kv hm => h kv (List.mem_cons_of_mem _ hm)))

/-- Canonical forms equal (on well-formed values) implies `JEquiv`:
the fingerprint collapses exactly key-order differences. -/
theorem jequiv_of_canon_eq_aux :
    ∀ (n : Nat) {a b : JVal}, sizeOf a ≤ n → canon a = canon b →
      wfB a = true → wfB b = true → JEquiv a b := by
  intro n
  induction n with
  | zero =>
    intro a b hs
    exact absurd hs (by have := jval_sizeOf_pos a; omega)
  | succ n ih =>
    intro a b hs heq hwa hwb
    cases a with
    | null =>
      cases b with
      | null => exact .null
      | bool b => simp [canon] at heq
      | num m => simp [canon] at heq
      | str t => simp [canon] at heq
      | arr ys => rw [canon_arr] at heq; simp [canon] at heq
      | obj lws => rw [canon_obj] at heq; simp [canon] at heq
    | bool b1 =>
      cases b with
      | bool b2 => simp [canon] at heq; rw [heq]; exact .bool b2
      | null => simp [canon] at heq
      | num m => simp [canon] at heq
      | str t => simp [canon] at heq
      | arr ys => rw [canon_arr] at heq; simp [canon] at heq
      | obj lws => rw [canon_obj] at heq; simp [canon] at heq
    | num n1 =>
      cases b with
      | num n2 => simp [canon] at heq; rw [heq]; exact .num n2
      | null => simp [canon] at heq
      | bool b2 => simp [canon] at heq
      | str t => simp [canon] at heq
      | arr ys => rw [canon_arr] at heq; simp [canon] at heq
      | obj lws => rw [canon_obj] at heq; simp [canon] at heq
    | str s1 =>
      cases b with
      | str s2 => simp [canon] at heq; rw [heq]; exact .str s2
      | null => simp [canon] at heq
      | bool b2 => simp [canon] at heq
      | num m => simp [canon] at heq
      | arr ys => rw [canon_arr] at heq; simp [canon] at heq
      | obj lws => rw [canon_obj] at heq; simp [canon] at heq
    | arr xs =>
      cases b with
      | null => rw [canon_arr] at heq; simp [canon] at heq
      | bool b2 => rw [canon_arr] at heq; simp [canon] at heq
      | num m => rw [canon_arr] at heq; simp [canon] at heq
      | str t => rw [canon_arr] at heq; simp [canon] at heq
      | obj lws => rw [canon_arr, canon_obj] at heq; simp at heq
      | arr ys =>
        rw [canon_arr, canon_arr, JVal.arr.injEq] at heq
        have hsz : ∀ x ∈ xs, sizeOf x ≤ n := by
          intro x hx
          have := sizeOf_elem_lt hx
          omega
        have hw1 := wfB_arr_iff.mp hwa
        have hw2 := wfB_arr_iff.mp hwb
        have key : ∀ (zs : List JVal), (∀ x ∈ zs, sizeOf x ≤ n) → (∀ x ∈ zs, wfB x = true) →
            ∀ (ws : List JVal), (∀ y ∈ ws, wfB y = true) → zs.map canon = ws.map canon →
            JEquiv (.arr zs) (.arr ws) := by
          intro zs
          induction zs with
          | nil =>
            intro _ _ ws _ hmap
            cases ws with
            | nil => exact .arrNil
            | cons w ws => simp at hmap
          | cons z zs ihz =>
            intro hsz1 hwz ws hww hmap
            cases ws with
            | nil => simp at hmap
            | cons w ws =>
              simp only [List.map_cons, List.cons.injEq] at hmap
              exact .arrCons
                (ih (hsz1 z (List.mem_cons_self z zs)) hmap.1
                  (hwz z (List.mem_cons_self z zs)) (hww w (List.mem_cons_self w ws)))
                (ihz (fun u hu => hsz1 u (List.mem_cons_of_mem z hu))
                  (fun u hu => hwz u (List.mem_cons_of_mem z hu)) ws
                  (fun u hu => hww u (List.mem_cons_of_mem w hu)) hmap.2)
        exact key xs hsz hw1 ys hw2 heq
    | obj kvs₁ =>
      cases b with
      | null => rw [canon_obj] at heq; simp [canon] at heq
      | bool b2 => rw [canon_obj] at heq; simp [canon] at heq
      | num m => rw [canon_obj] at heq; simp [canon] at heq
      | str t => rw [canon_obj] at heq; simp [canon] at heq
      | arr ys => rw [canon_obj, canon_arr] at heq; simp at heq
      | obj kvs₂ =>
        rw [canon_obj, canon_obj, JVal.obj.injEq] at heq
        have hperm : (kvs₁.map (fun kv => (kv.1, canon kv.2))).Perm
            (kvs₂.map (fun kv => (kv.1, canon kv.2))) :=
          (sortEntries_perm _).symm.trans (heq ▸ sortEntries_perm _)
        obtain ⟨nd₁, hv₁⟩ := wfB_obj_iff.mp hwa
        obtain ⟨nd₂, hv₂⟩ := wfB_obj_iff.mp hwb
        have ndce₁ : ((kvs₁.map (fun kv => (kv.1, canon kv.2))).map Prod.fst).Nodup := by
          rw [map_ce_fst]; exact nd₁
        have hkeys : (kvs₁.map Prod.fst).Perm (kvs₂.map Prod.fst) := by
          have := hperm.map Prod.fst
          rw [map_ce_fst, map_ce_fst] at this
          exact this
        -- each key of kvs₂ resolves in kvs₁ to a value with the same canonical form
        have hres : ∀ kv ∈ kvs₂, ∃ v, List.lookup kv.1 kvs₁ = some v ∧ canon v = canon kv.2 := by
          intro kv hm
          have hk : kv.1 ∈ kvs₁.map Prod.fst :=
            hkeys.mem_iff.mpr (List.mem_map.mpr ⟨kv, hm, rfl⟩)
          obtain ⟨v, hv⟩ := lookup_isSome_of_mem_keys hk
          refine ⟨v, hv, ?_⟩
          have m1 : List.lookup kv.1 (kvs₁.map (fun kv => (kv.1, canon kv.2))) = some (canon v) :=
            mem_lookup ndce₁ (List.mem_map.mpr ⟨(kv.1, v), lookup_mem hv, rfl⟩)
          have m2 : List.lookup kv.1 (kvs₂.map (fun kv => (kv.1, canon kv.2))) = some (canon kv.2) :=
            mem_lookup (by rw [map_ce_fst]; exact nd₂) (List.mem_map.mpr ⟨kv, hm, rfl⟩)
          have := lookup_perm hperm ndce₁ kv.1
          rw [m1, m2] at this
          exact Option.some.inj this
        -- the middle list: entries of kvs₂ with the corresponding kvs₁ values
        refine @JEquiv.objPerm kvs₁
          (kvs₂.map (fun kv => (kv.1, (List.lookup kv.1 kvs₁).getD kv.2))) kvs₂ ?_ ?_
        · -- kvs₁ is a permutation of the middle list
          have ndl : kvs₁.Nodup := List.Nodup.of_map _ nd₁
          have ndm : (kvs₂.map (fun kv => (kv.1, (List.lookup kv.1 kvs₁).getD kv.2))).Nodup := by
            refine List.Nodup.of_map Prod.fst ?_
            rw [List.map_map]
            exact nd₂
          rw [List.perm_ext_iff_of_nodup ndl ndm]
          intro p
          constructor
          · intro hp
            have hk : p.1 ∈ kvs₂.map Prod.fst :=
              hkeys.mem_iff.mp (List.mem_map.mpr ⟨p, hp, rfl⟩)
            obtain ⟨q, hq, hq1⟩ := List.mem_map.mp hk
            refine List.mem_map.mpr ⟨q, hq, ?_⟩
            have : List.lookup q.1 kvs₁ = some p.2 := by
              rw [hq1]
              exact mem_lookup nd₁ (by rw [show (p.1, p.2) = p from rfl]; exact hp)
            rw [this, hq1]
            rfl
          · intro hp
            obtain ⟨q, hq, hq1⟩ := List.mem_map.mp hp
            obtain ⟨v, hv, _⟩ := hres q hq
            rw [← hq1, hv]
            exact lookup_mem hv
        · -- the middle list is pointwise JEquiv to kvs₂
          refine jequiv_obj_pointwise _ kvs₂ ?_
          intro kv hm
          obtain ⟨v, hv, hcv⟩ := hres kv hm
          rw [hv]
          simp only [Option.getD_some]
          have hvm : (kv.1, v) ∈ kvs₁ := lookup_mem hv
          refine ih ?_ hcv (hv₁ (kv.1, v) hvm) (hv₂ kv hm)
          have h5 : sizeOf v < sizeOf (JVal.obj kvs₁) := sizeOf_val_lt hvm
          omega

theorem jequiv_of_canon_eq {a b : JVal} (heq : canon a = canon b)
    (hwa : wfB a = true) (hwb : wfB b = true) : JEquiv a b :=
  jequiv_of_canon_eq_aux (sizeOf a) (Nat.le_refl _) heq hwa hwb

/-- `raw_data.get(k)`: the section value, JSON `null` when absent
(Python `None` serializes as `null`). -/
def sectionOf (raw : List (String × JVal)) (k : String) : JVal :=
  (List.lookup k raw).getD .null

/-- The `content_to_hash` dict of `run_update_cycle`: exactly the three
sections `CLASSES`, `CLASS_SCHEDULE`, `TEACHERS`. -/
def content_to_hash (raw : List (String × JVal)) : JVal :=
  .obj [("CLASSES", sectionOf raw "CLASSES"),
        ("CLASS_SCHEDULE", sectionOf raw "CLASS_SCHEDULE"),
        ("TEACHERS", sectionOf raw "TEACHERS")]

/-- The fingerprint `md5(json.dumps(content_to_hash, sort_keys=True))`,
modelled by the canonical form of the hashed content (serialization
with sorted keys is injective up to key order; the checksum is modelled
as injective, which is the spec's stated intent). -/
def digest (raw : List (String × JVal)) : JVal := canon (content_to_hash raw)

theorem sortEntries_triple_eq_iff (x₁ y₁ z₁ x₂ y₂ z₂ : JVal) :
    sortEntries [("CLASSES", x₁), ("CLASS_SCHEDULE", y₁), ("TEACHERS", z₁)] =
      sortEntries [("CLASSES", x₂), ("CLASS_SCHEDULE", y₂), ("TEACHERS", z₂)] ↔
    (x₁ = x₂ ∧ y₁ = y₂ ∧ z₁ = z₂) := by
  constructor
  · intro h
    have hperm : ([("CLASSES", x₁), ("CLASS_SCHEDULE", y₁), ("TEACHERS", z₁)] :
        List (String × JVal)).Perm [("CLASSES", x₂), ("CLASS_SCHEDULE", y₂), ("TEACHERS", z₂)] :=
      (sortEntries_perm _).symm.trans (h ▸ sortEntries_perm _)
    have nd : (([("CLASSES", x₁), ("CLASS_SCHEDULE", y₁), ("TEACHERS", z₁)] :
        List (String × JVal)).map Prod.fst).Nodup := by
      simp only [List.map_cons, List.map_nil]
      decide
    have e1 := lookup_perm hperm nd "CLASSES"
    have e2 := lookup_perm hperm nd "CLASS_SCHEDULE"
    have e3 := lookup_perm hperm nd "TEACHERS"
    refine ⟨Option.some.inj ?_, Option.some.inj ?_, Option.some.inj ?_⟩
    · exact e1
    · exact e2
    · exact e3
  · rintro ⟨h1, h2, h3⟩
    rw [h1, h2, h3]

theorem digest_eq_iff (r₁ r₂ : List (String × JVal)) :
    digest r₁ = digest r₂ ↔
      (canon (sectionOf r₁ "CLASSES") = canon (sectionOf r₂ "CLASSES") ∧
       canon (sectionOf r₁ "CLASS_SCHEDULE") = canon (sectionOf r₂ "CLASS_SCHEDULE") ∧
       canon (sectionOf r₁ "TEACHERS") = canon (sectionOf r₂ "TEACHERS")) := by
  rw [digest, digest, content_to_hash, content_to_hash, canon_obj, canon_obj]
  simp only [List.map_cons, List.map_nil, JVal.obj.injEq]
  exact sortEntries_triple_eq_iff _ _ _ _ _ _

/-- C2.  Digest stability: the fingerprint is a function of exactly the
`CLASSES`, `CLASS_SCHEDULE` and `TEACHERS` sections; it is unchanged by
modifications confined to the substitutions section (`CLASS_EXCHANGE`);
it is invariant under key-order permutation of the raw maps (at the top
level, and at every depth via `JEquiv`); and for well-formed sections
it is equal exactly when the three sections carry the same data up to
key order. -/
theorem C2_digest_stability :
    (∀ raw₁ raw₂ : List (String × JVal),
       sectionOf raw₁ "CLASSES" = sectionOf raw₂ "CLASSES" →
       sectionOf raw₁ "CLASS_SCHEDULE" = sectionOf raw₂ "CLASS_SCHEDULE" →
       sectionOf raw₁ "TEACHERS" = sectionOf raw₂ "TEACHERS" →
       digest raw₁ = digest raw₂) ∧
    (∀ raw₁ raw₂ : List (String × JVal),
       (∀ k, k ≠ "CLASS_EXCHANGE" → List.lookup k raw₁ = List.lookup k raw₂) →
       digest raw₁ = digest raw₂) ∧
    (∀ raw₁ raw₂ : List (String × JVal),
       raw₁.Perm raw₂ → (raw₁.map Prod.fst).Nodup → digest raw₁ = digest raw₂) ∧
    (∀ raw₁ raw₂ : List (String × JVal),
       wfB (sectionOf raw₁ "CLASSES") = true → wfB (sectionOf raw₁ "CLASS_SCHEDULE") = true →
       wfB (sectionOf raw₁ "TEACHERS") = true → wfB (sectionOf raw₂ "CLASSES") = true →
       wfB (sectionOf raw₂ "CLASS_SCHEDULE") = true → wfB (sectionOf raw₂ "TEACHERS") = true →
       (digest raw₁ = digest raw₂ ↔
         (JEquiv (sectionOf raw₁ "CLASSES") (sectionOf raw₂ "CLASSES") ∧
          JEquiv (sectionOf raw₁ "CLASS_SCHEDULE") (sectionOf raw₂ "CLASS_SCHEDULE") ∧
          JEquiv (sectionOf raw₁ "TEACHERS") (sectionOf raw₂ "TEACHERS")))) := by
  have base : ∀ raw₁ raw₂ : List (String × JVal),
      sectionOf raw₁ "CLASSES" = sectionOf raw₂ "CLASSES" →
      sectionOf raw₁ "CLASS_SCHEDULE" = sectionOf raw₂ "CLASS_SCHEDULE" →
      sectionOf raw₁ "TEACHERS" = sectionOf raw₂ "TEACHERS" →
      digest raw₁ = digest raw₂ := by
    intro raw₁ raw₂ h1 h2 h3
    rw [digest, digest, content_to_hash, content_to_hash, h1, h2, h3]
  refine ⟨base, ?_, ?_, ?_⟩
  · intro raw₁ raw₂ h
    refine base raw₁ raw₂ ?_ ?_ ?_ <;> rw [sectionOf, sectionOf]
    · rw [h "CLASSES" (by decide)]
    · rw [h "CLASS_SCHEDULE" (by decide)]
    · rw [h "TEACHERS" (by decide)]
  · intro raw₁ raw₂ hperm nd
    refine base raw₁ raw₂ ?_ ?_ ?_ <;> rw [sectionOf, sectionOf]
    · rw [lookup_perm hperm nd]
    · rw [lookup_perm hperm nd]
    · rw [lookup_perm hperm nd]
  · intro raw₁ raw₂ w1 w2 w3 w4 w5 w6
    rw [digest_eq_iff]
    constructor
    · rintro ⟨h1, h2, h3⟩
      exact ⟨jequiv_of_canon_eq h1 w1 w4, jequiv_of_canon_eq h2 w2 w5,
        jequiv_of_canon_eq h3 w3 w6⟩
    · rintro ⟨h1, h2, h3⟩
      exact ⟨canon_eq_of_jequiv h1 w1, canon_eq_of_jequiv h2 w2, canon_eq_of_jequiv h3 w3⟩

/-- Concrete instance of C2: permuting the `CLASSES` keys and changing
only `CLASS_EXCHANGE` leaves the fingerprint unchanged. -/
theorem C2_digest_stability_witness :
    (JEquiv (sectionOf [("CLASSES", .obj [("1", .str "10A"), ("2", .str "9B")]),
                        ("CLASS_SCHEDULE", .obj []), ("TEACHERS", .obj []),
                        ("CLASS_EXCHANGE", .obj [("9", .null)])] "CLASSES")
            (sectionOf [("CLASSES", .obj [("2", .str "9B"), ("1", .str "10A")]),
                        ("CLASS_SCHEDULE", .obj []), ("TEACHERS", .obj []),
                        ("CLASS_EXCHANGE", .obj [])] "CLASSES")) ∧
    digest [("CLASSES", .obj [("1", .str "10A"), ("2", .str "9B")]),
            ("CLASS_SCHEDULE", .obj []), ("TEACHERS", .obj []),
            ("CLASS_EXCHANGE", .obj [("9", .null)])] =
      digest [("CLASSES", .obj [("1", .str "10A"), ("2", .str "9B")]),
              ("CLASS_SCHEDULE", .obj []), ("TEACHERS", .obj []),
              ("CLASS_EXCHANGE", .str "changed")] := by
  constructor
  · exact ((C2_digest_stability.2.2.2 _ _ (by decide) (by decide) (by decide) (by decide)
      (by decide) (by decide)).mp (by rfl)).1
  · refine C2_digest_stability.2.1 _ _ ?_
    intro k hk
    by_cases h1 : k = "CLASSES"
    · subst h1; rfl
    · by_cases h2 : k = "CLASS_SCHEDULE"
      · subst h2; rfl
      · by_cases h3 : k = "TEACHERS"
        · subst h3; rfl
        · simp only [List.lookup_cons, beq_false_of_ne h1, beq_false_of_ne h2,
            beq_false_of_ne h3, beq_false_of_ne hk]

mutual

def jvalDecEq : (a b : JVal) → Decidable (a = b)
  | .null, .null => isTrue rfl
  | .null, .bool _ => isFalse nofun
  | .null, .num _ => isFalse nofun
  | .null, .str _ => isFalse nofun
  | .null, .arr _ => isFalse nofun
  | .null, .obj _ => isFalse nofun
  | .bool _, .null => isFalse nofun
  | .bool a, .bool b =>
    if h : a = b then isTrue (by rw [h]) else isFalse (fun hh => h (JVal.bool.inj hh))
  | .bool _, .num _ => isFalse nofun
  | .bool _, .str _ => isFalse nofun
  | .bool _, .arr _ => isFalse nofun
  | .bool _, .obj _ => isFalse nofun
  | .num _, .null => isFalse nofun
  | .num _, .bool _ => isFalse nofun
  | .num a, .num b =>
    if h : a = b then isTrue (by rw [h]) else isFalse (fun hh => h (JVal.num.inj hh))
  | .num _, .str _ => isFalse nofun
  | .num _, .arr _ => isFalse nofun
  | .num _, .obj _ => isFalse nofun
  | .str _, .null => isFalse nofun
  | .str _, .bool _ => isFalse nofun
  | .str _, .num _ => isFalse nofun
  | .str a, .str b =>
    if h : a = b then isTrue (by rw [h]) else isFalse (fun hh => h (JVal.str.inj hh))
  | .str _, .arr _ => isFalse nofun
  | .str _, .obj _ => isFalse nofun
  | .arr _, .null => isFalse nofun
  | .arr _, .bool _ => isFalse nofun
  | .arr _, .num _ => isFalse nofun
  | .arr _, .str _ => isFalse nofun
  | .arr xs, .arr ys =>
    match jvalDecEqList xs ys with
    | isTrue h => isTrue (by rw [h])
    | isFalse h => isFalse (fun hh => h (JVal.arr.inj hh))
  | .arr _, .obj _ => isFalse nofun
  | .obj _, .null => isFalse nofun
  | .obj _, .bool _ => isFalse nofun
  | .obj _, .num _ => isFalse nofun
  | .obj _, .str _ => isFalse nofun
  | .obj _, .arr _ => isFalse nofun
  | .obj kvs, .obj lws =>
    match jvalDecEqEntries kvs lws with
    | isTrue h => isTrue (by rw [h])
    | isFalse h => isFalse (fun hh => h (JVal.obj.inj hh))
termination_by structural a => a

def jvalDecEqList : (xs ys : List JVal) → Decidable (xs = ys)
  | [], [] => isTrue rfl
  | [], _ :: _ => isFalse nofun
  | _ :: _, [] => isFalse nofun
  | x :: xs, y :: ys =>
    match jvalDecEq x y with
    | isFalse h => isFalse (fun hh => h (by injection hh))
    | isTrue h1 =>
      match jvalDecEqList xs ys with
      | isTrue h2 => isTrue (by rw [h1, h2])
      | isFalse h2 => isFalse (fun hh => h2 (by injection hh))
termination_by structural l => l

def jvalDecEqEntries : (kvs lws : List (String × JVal)) → Decidable (kvs = lws)
  | [], [] => isTrue rfl
  | [], _ :: _ => isFalse nofun
  | _ :: _, [] => isFalse nofun
  | (k, v) :: kvs, (k2, w) :: lws =>
    if hk : k = k2 then
      match jvalDecEq v w with
      | isTrue hv =>
        match jvalDecEqEntries kvs lws with
        | isTrue ht => isTrue (by rw [hk, hv, ht])
        | isFalse ht => isFalse (fun hh => ht (by injection hh))
      | isFalse hv =>
        isFalse (fun hh => hv (by injection hh with h1 h2; exact congrArg Prod.snd h1))
    else
      isFalse (fun hh => hk (by injection hh with h1 h2; exact congrArg Prod.fst h1))
termination_by structural l => l

end

instance : DecidableEq JVal := jvalDecEq

/-!
### Synchronizer (`update_database`) and pipeline (`run_update_cycle`)

The persistent store (`classes`, `teachers`, `schedules`,
`substitutions` tables and the `system_meta` row holding the schedule
hash) is `DBState`.  The session of `run_update_cycle` commits only
once, at the end of the cycle; on any exception the context manager
closes the session without committing and the open transaction is
rolled back, so a failing cycle leaves the persistent state untouched.
We model this by running `update_database` as a pure
`DBState → Except PyErr DBState` function on a pending copy of the
state and publishing the result only in the success branch.

Row identities (SQLite autoincrement, allocated at flush in insertion
order) are modelled by the `next_class_id`/`next_teacher_id` counters.
Unique-name constraints on classes and teachers are not modelled (no
claim depends on them); the failure of a multi-row insert built from an
empty row list is (see `update_database`).
-/

structure ClassRow where
  id : Nat
  name : String
  external_id : String
  grade_level : Nat
deriving DecidableEq

structure TeacherRow where
  id : Nat
  name : String
  external_id : String
deriving DecidableEq

structure ScheduleRow where
  class_id : Nat
  day_of_week : Int
  lesson_number : Nat
  subject_name : String
  teacher_name : String
  room_number : String
  is_substitution : Bool
deriving DecidableEq

structure SubRow where
  class_id : Nat
  date : String
  lesson_number : Nat
  subject_name : Option String
  teacher_name : Option String
  room_number : Option String
  is_cancelled : Bool
deriving DecidableEq

structure DBState where
  classes : List ClassRow
  teachers : List TeacherRow
  schedules : List ScheduleRow
  substitutions : List SubRow
  schedule_hash : Option JVal
  next_class_id : Nat
  next_teacher_id : Nat
deriving DecidableEq

/-- The row denoted by `existing_classes[ext]`: the dict comprehension
`{c.external_id: c for c in ...}` keeps, for each external id, the last
row (external ids are unique in every state this pipeline produces). -/
def lastWithExt (rows : List ClassRow) (ext : String) : Option ClassRow :=
  (rows.filter (fun c => c.external_id == ext)).getLast?

/-- Step 1 of `update_database`: upsert classes by external id (update
name and grade of the targeted existing row in place, stage the rest as
new rows whose ids are allocated at the flush, in insertion order) and
build the externalId → internal id map `class_map`. -/
def syncClasses (s : DBState) (ncls : List ClassRec) :
    DBState × List (String × Nat) :=
  let existingExts := s.classes.map (fun c => c.external_id)
  let classes1 := s.classes.map (fun c =>
    match ncls.find? (fun cd => cd.id == c.external_id) with
    | some cd =>
      if lastWithExt s.classes cd.id = some c then
        { c with name := cd.name, grade_level := cd.grade }
      else c
    | none => c)
  let newRecs := ncls.filter (fun cd => !(existingExts.contains cd.id))
  let newRows := newRecs.enum.map (fun p =>
    { id := s.next_class_id + p.1, name := p.2.name, external_id := p.2.id,
      grade_level := p.2.grade : ClassRow })
  let cmap := ncls.map (fun cd =>
    (cd.id,
     match lastWithExt s.classes cd.id with
     | some c => c.id
     | none =>
       match newRows.find? (fun r => r.external_id == cd.id) with
       | some r => r.id
       | none => 0))
  ({ s with classes := classes1 ++ newRows,
            next_class_id := s.next_class_id + newRecs.length }, cmap)

/-- Step 1.5 of `update_database`: insert-only teacher sync — only
records whose external id is not already present become new rows. -/
def syncTeachers (s : DBState) (nt : List TeacherRec) : DBState :=
  let existing := s.teachers.map (fun t => t.external_id)
  let newT := nt.filter (fun t => !(existing.contains t.id))
  let newRows := newT.enum.map (fun p =>
    { id := s.next_teacher_id + p.1, name := p.2.name, external_id := p.2.id : TeacherRow })
  { s with teachers := s.teachers ++ newRows,
           next_teacher_id := s.next_teacher_id + newT.length }

/-- The rows built for the lesson insert: normalized lessons whose
class external id resolves in `class_map` (`if str(l.class_id) in
class_map` — unresolved records are dropped from the list). -/
def lessonRows (class_map : List (String × Nat)) (schedule_data : List LessonRaw) :
    List ScheduleRow :=
  schedule_data.filterMap (fun l =>
    (List.lookup l.class_id class_map).map (fun cid =>
      { class_id := cid, day_of_week := l.day, lesson_number := l.number,
        subject_name := l.subject, teacher_name := l.teacher, room_number := l.room,
        is_substitution := false : ScheduleRow }))

/-- Step 2 of `update_database`: delete every `Schedule` row, then
insert the mapped lesson rows.  The insert is guarded by
`len(schedule_data) > 0` — the count before the class-map filter — so a
non-empty schedule whose records are all unmapped executes
`insert(Schedule).values([])`; the empty multi-row list degrades to an
insert supplying no column values, whose execution attempts a defaults
row violating the NOT NULL constraint on `schedules.class_id`. -/
def replaceSchedule (s : DBState) (class_map : List (String × Nat))
    (schedule_data : List LessonRaw) : Except PyErr DBState :=
  let cleared := { s with schedules := [] }
  let rows := lessonRows class_map schedule_data
  if schedule_data.length > 0 then
    if rows.isEmpty then
      .error "IntegrityError: NOT NULL constraint failed: schedules.class_id"
    else
      .ok { cleared with schedules := rows }
  else
    .ok cleared

/-- The rows built for the substitution insert: records whose class id
resolves to a truthy internal id (`internal_cid = class_map.get(...)`,
then `if internal_cid:` — so an unresolved or zero id drops the
record). -/
def subRows (class_map : List (String × Nat)) (subs_data : List SubRecord) : List SubRow :=
  subs_data.filterMap (fun sub =>
    (List.lookup sub.class_id class_map).bind (fun cid =>
      if cid = 0 then none
      else
        some { class_id := cid, date := sub.date, lesson_number := sub.lesson_number,
               subject_name := sub.subject_name, teacher_name := sub.teacher_name,
               room_number := sub.room_number, is_cancelled := sub.is_cancelled : SubRow }))

/-- Step 3 of `update_database`: delete every substitution row, then
insert the mapped records; both the outer `if subs_data:` and the inner
`if valid_subs:` guard only the insert, so this step never fails. -/
def replaceSubstitutions (s : DBState) (class_map : List (String × Nat))
    (subs_data : List SubRecord) : DBState :=
  let cleared := { s with substitutions := [] }
  if subs_data.isEmpty then cleared
  else
    let valid_subs := subRows class_map subs_data
    if valid_subs.isEmpty then cleared
    else { cleared with substitutions := valid_subs }

/-- `update_database(session, parser, raw_data)`: class upsert, teacher
upsert, full replace of schedules, full replace of substitutions, on
the pending session state; any exception propagates to the caller and
the commit is the caller's. -/
def update_database (s : DBState) (raw : List (String × JVal)) : Except PyErr DBState :=
  match normalize_classes raw with
  | .error e => .error e
  | .ok ncls =>
    let sc := syncClasses s ncls
    match normalize_teachers raw with
    | .error e => .error e
    | .ok nt =>
      let s2 := syncTeachers sc.1 nt
      match normalize_schedule raw with
      | .error e => .error e
      | .ok schedule_data =>
        match replaceSchedule s2 sc.2 schedule_data with
        | .error e => .error e
        | .ok s4 =>
          match normalize_substitutions raw with
          | .error e => .error e
          | .ok subs_data => .ok (replaceSubstitutions s4 sc.2 subs_data)

/-- `run_update_cycle`: fetch (`none` models a failed fetch), compare
the fingerprint of the fetched snapshot with the stored one (an absent
meta row reads as `""`, which no fingerprint equals), and on mismatch
run the synchronization unit; the new fingerprint is written and the
whole unit committed only when every step succeeded, any exception
leaving the store unchanged (rollback on session close). -/
def run_update_cycle (s : DBState) (fetched : Option (List (String × JVal))) : DBState :=
  match fetched with
  | none => s
  | some raw =>
    if s.schedule_hash = some (digest raw) then s
    else
      match update_database s raw with
      | .error _ => s
      | .ok s1 => { s1 with schedule_hash := some (digest raw) }

structure UserRow where
  telegram_id : Int
  notification_enabled : Bool
deriving DecidableEq

structure NotifyResult where
  attempts : List Int
  delivered : Nat
  retval : Option Nat
deriving DecidableEq

/-- `notify_subscribers(session, bot)`: select the users with
notifications enabled, send one message to each, counting successes and
swallowing per-recipient failures (`except Exception: pass`); the
function logs the count and returns `None` (modelled by
`retval := none`).  `send_ok` tells, per telegram id, whether
`bot.send_message` succeeds or raises. -/
def notify_subscribers (users : List UserRow) (send_ok : Int → Bool) : NotifyResult :=
  let subs := users.filter (fun u => u.notification_enabled)
  let step := fun (acc : Nat × List Int) (u : UserRow) =>
    (if send_ok u.telegram_id then acc.1 + 1 else acc.1, acc.2 ++ [u.telegram_id])
  let r := subs.foldl step (0, [])
  { attempts := r.2, delivered := r.1, retval := none }

example :
    update_database ⟨[], [], [], [], none, 1, 1⟩
      [("CLASSES", .obj []),
       ("CLASS_SCHEDULE", .obj [("60", .obj [("X", .obj [("101", .obj [])])])])] =
    .error "IntegrityError: NOT NULL constraint failed: schedules.class_id" := by decide

example :
    run_update_cycle ⟨[], [], [], [], none, 1, 1⟩
      (some [("CLASSES", .obj [("5", .str "10A")]), ("TEACHERS", .obj []),
             ("CLASS_SCHEDULE", .obj [("60", .obj [("5", .obj [("101",
                .obj [("s", .arr [.str "036"]), ("t", .arr []), ("r", .arr [.str "005"])])])])]),
             ("SUBJECTS", .obj [("036", .str "Math")])]) =
    ⟨[⟨1, "10A", "5", 10⟩], [], [⟨1, 0, 1, "Math", "", "005", false⟩], [],
     some (digest [("CLASSES", .obj [("5", .str "10A")]), ("TEACHERS", .obj []),
             ("CLASS_SCHEDULE", .obj [("60", .obj [("5", .obj [("101",
                .obj [("s", .arr [.str "036"]), ("t", .arr []), ("r", .arr [.str "005"])])])])]),
             ("SUBJECTS", .obj [("036", .str "Math")])]), 2, 1⟩ := by decide

example : run_update_cycle ⟨[], [], [], [], none, 1, 1⟩ (some [("CLASSES", .num 5)]) =
    ⟨[], [], [], [], none, 1, 1⟩ := by decide

theorem replaceSubstitutions_teachers (s : DBState) (cm : List (String × Nat))
    (subs : List SubRecord) : (replaceSubstitutions s cm subs).teachers = s.teachers := by
  unfold replaceSubstitutions
  by_cases h1 : subs.isEmpty
  · simp [h1]
  · by_cases h2 : (subRows cm subs).isEmpty <;> simp [h1, h2]

theorem replaceSchedule_teachers {s : DBState} {cm : List (String × Nat)}
    {sd : List LessonRaw} {s4 : DBState} (h : replaceSchedule s cm sd = .ok s4) :
    s4.teachers = s.teachers := by
  unfold replaceSchedule at h
  by_cases h1 : sd.length > 0
  · rw [if_pos h1] at h
    by_cases h2 : (lessonRows cm sd).isEmpty
    · rw [if_pos h2] at h
      exact Except.noConfusion h
    · rw [if_neg h2] at h
      cases h
      rfl
  · rw [if_neg h1] at h
    cases h
    rfl

theorem mem_enum_snd {α : Type} {p : Nat × α} : ∀ {l : List α}, p ∈ l.enum → p.2 ∈ l := by
  have key : ∀ (l : List α) (n : Nat) (q : Nat × α), q ∈ l.enumFrom n → q.2 ∈ l := by
    intro l
    induction l with
    | nil => intro n q h; simp [List.enumFrom] at h
    | cons x l ih =>
      intro n q h
      rw [List.enumFrom] at h
      rcases List.mem_cons.mp h with h1 | h1
      · rw [h1]
        exact List.mem_cons_self x l
      · exact List.mem_cons_of_mem x (ih (n + 1) q h1)
  intro l h
  exact key l 0 _ h

/-- C1.  Synchronizer atomicity: the whole update unit (class upsert,
teacher upsert, lesson replace, substitution replace, digest write)
commits together; a failed fetch, a matching digest, or a failure of
any step leaves the persistent store exactly as it was. -/
theorem C1_sync_atomicity :
    (∀ (s : DBState) (raw : List (String × JVal)) (e : PyErr),
       update_database s raw = .error e → run_update_cycle s (some raw) = s) ∧
    (∀ s : DBState, run_update_cycle s none = s) ∧
    (∀ (s : DBState) (raw : List (String × JVal)) (s1 : DBState),
       s.schedule_hash ≠ some (digest raw) → update_database s raw = .ok s1 →
       run_update_cycle s (some raw) = { s1 with schedule_hash := some (digest raw) }) := by
  refine ⟨?_, fun s => rfl, ?_⟩
  · intro s raw e h
    unfold run_update_cycle
    dsimp only
    by_cases hh : s.schedule_hash = some (digest raw)
    · rw [if_pos hh]
    · rw [if_neg hh, h]
  · intro s raw s1 hh h
    unfold run_update_cycle
    dsimp only
    rw [if_neg hh, h]

/-- Concrete instance of C1: a snapshot whose `CLASSES` section is not
a map makes the class upsert raise, and the cycle leaves the store
untouched; a well-formed snapshot commits all steps and the digest at
once. -/
theorem C1_sync_atomicity_witness :
    run_update_cycle ⟨[], [], [], [], none, 1, 1⟩ (some [("CLASSES", .num 5)]) =
      ⟨[], [], [], [], none, 1, 1⟩ ∧
    run_update_cycle ⟨[], [], [], [], none, 1, 1⟩ (some [("CLASSES", .obj [("5", .str "10A")])]) =
      ⟨[⟨1, "10A", "5", 10⟩], [], [], [], some (digest [("CLASSES", .obj [("5", .str "10A")])]), 2, 1⟩ :=
  ⟨C1_sync_atomicity.1 ⟨[], [], [], [], none, 1, 1⟩ [("CLASSES", .num 5)]
      "AttributeError: items" (by decide),
   C1_sync_atomicity.2.2 ⟨[], [], [], [], none, 1, 1⟩ [("CLASSES", .obj [("5", .str "10A")])]
      ⟨[⟨1, "10A", "5", 10⟩], [], [], [], none, 2, 1⟩ (by decide) (by decide)⟩

/-- C3 (code bug).  Unmapped lesson records are dropped from the
insert, but the insert guard tests the pre-filter count
(`if len(schedule_data) > 0`), so a snapshot whose every lesson is
unmapped executes an insert built from an empty row list, which fails —
while the substitutions path (guarded by the filtered list) drops
unmapped records silently, as the spec describes for both. -/
theorem C3_unmapped_drop_code_bug :
    normalize_schedule [("CLASSES", .obj []),
        ("CLASS_SCHEDULE", .obj [("60", .obj [("X", .obj [("101", .obj [])])])])] =
      .ok [{ class_id := "X", day := 0, number := 1, subject := "", teacher := "", room := "" }] ∧
    update_database ⟨[], [], [], [], none, 1, 1⟩ [("CLASSES", .obj []),
        ("CLASS_SCHEDULE", .obj [("60", .obj [("X", .obj [("101", .obj [])])])])] =
      .error "IntegrityError: NOT NULL constraint failed: schedules.class_id" ∧
    update_database ⟨[], [], [], [], none, 1, 1⟩ [("CLASSES", .obj []),
        ("CLASS_EXCHANGE", .obj [("X", .obj [("20.01.2026", .obj [("3", .obj [])])])])] =
      .ok ⟨[], [], [], [], none, 1, 1⟩ := by decide

/-- C9.  Teacher upsert is insert-only: every stored teacher row
survives the cycle verbatim (in particular its name), and the rows
appended are exactly those whose external id was previously unseen. -/
theorem C9_teacher_upsert_insert_only :
    ∀ (s : DBState) (raw : List (String × JVal)) (s1 : DBState),
      update_database s raw = .ok s1 →
      (∀ t ∈ s.teachers, t ∈ s1.teachers) ∧
      ∃ newRows : List TeacherRow,
        s1.teachers = s.teachers ++ newRows ∧
        ∀ r ∈ newRows, r.external_id ∉ s.teachers.map (fun t => t.external_id) := by
  intro s raw s1 h
  unfold update_database at h
  cases hc : normalize_classes raw with
  | error e => rw [hc] at h; exact Except.noConfusion h
  | ok ncls =>
    rw [hc] at h
    dsimp only at h
    cases ht : normalize_teachers raw with
    | error e => rw [ht] at h; exact Except.noConfusion h
    | ok nt =>
      rw [ht] at h
      dsimp only at h
      cases hs : normalize_schedule raw with
      | error e => rw [hs] at h; exact Except.noConfusion h
      | ok sd =>
        rw [hs] at h
        dsimp only at h
        cases hr : replaceSchedule (syncTeachers (syncClasses s ncls).1 nt)
            (syncClasses s ncls).2 sd with
        | error e => rw [hr] at h; exact Except.noConfusion h
        | ok s4 =>
          rw [hr] at h
          dsimp only at h
          cases hsub : normalize_substitutions raw with
          | error e => rw [hsub] at h; exact Except.noConfusion h
          | ok subs =>
            rw [hsub] at h
            dsimp only at h
            have hs1 : s1 = replaceSubstitutions s4 (syncClasses s ncls).2 subs :=
              (Except.ok.inj h).symm
            have hteach : s1.teachers = (syncTeachers (syncClasses s ncls).1 nt).teachers := by
              rw [hs1, replaceSubstitutions_teachers, replaceSchedule_teachers hr]
            have hbase : (syncClasses s ncls).1.teachers = s.teachers := rfl
            rw [syncTeachers] at hteach
            dsimp only at hteach
            rw [hbase] at hteach
            constructor
            · intro t htm
              rw [hteach]
              exact List.mem_append_left _ htm
            · refine ⟨_, hteach, ?_⟩
              intro r hr2
              obtain ⟨p, hp, hpr⟩ := List.mem_map.mp hr2
              have hmem : p.2 ∈ (nt.filter
                  (fun t => !((s.teachers.map (fun t => t.external_id)).contains t.id))) :=
                mem_enum_snd hp
              have := List.of_mem_filter hmem
              rw [← hpr]
              simpa using this

/-- Concrete instance of C9: a re-seen external id keeps its stored
name; a fresh external id is appended. -/
theorem C9_teacher_upsert_insert_only_witness :
    (∀ t ∈ (⟨[], [⟨1, "Old Name", "T1"⟩], [], [], none, 1, 2⟩ : DBState).teachers,
       t ∈ (⟨[], [⟨1, "Old Name", "T1"⟩, ⟨2, "Fresh", "T2"⟩], [], [], none, 1, 3⟩ : DBState).teachers) ∧
    ∃ newRows : List TeacherRow,
      (⟨[], [⟨1, "Old Name", "T1"⟩, ⟨2, "Fresh", "T2"⟩], [], [], none, 1, 3⟩ : DBState).teachers =
        (⟨[], [⟨1, "Old Name", "T1"⟩], [], [], none, 1, 2⟩ : DBState).teachers ++ newRows ∧
      ∀ r ∈ newRows, r.external_id ∉
        (⟨[], [⟨1, "Old Name", "T1"⟩], [], [], none, 1, 2⟩ : DBState).teachers.map
          (fun t => t.external_id) :=
  C9_teacher_upsert_insert_only ⟨[], [⟨1, "Old Name", "T1"⟩], [], [], none, 1, 2⟩
    [("TEACHERS", .obj [("T1", .str "New Name"), ("T2", .str "Fresh")])]
    ⟨[], [⟨1, "Old Name", "T1"⟩, ⟨2, "Fresh", "T2"⟩], [], [], none, 1, 3⟩ (by decide)

theorem notify_foldl (send_ok : Int → Bool) :
    ∀ (l : List UserRow) (acc : Nat × List Int),
      l.foldl (fun acc u =>
          (if send_ok u.telegram_id then acc.1 + 1 else acc.1, acc.2 ++ [u.telegram_id])) acc =
        (acc.1 + (l.filter (fun u => send_ok u.telegram_id)).length,
         acc.2 ++ l.map (fun u => u.telegram_id)) := by
  intro l
  induction l with
  | nil => intro acc; simp
  | cons u l ih =>
    intro acc
    rw [List.foldl_cons, ih]
    refine Prod.ext ?_ ?_
    · by_cases h : send_ok u.telegram_id <;> simp [h] <;> omega
    · by_cases h : send_ok u.telegram_id <;> simp [h]

/-- The original C6 fails on the code: `notify_subscribers` counts the
successful deliveries but has no return statement, so it returns
`None`, not the count. -/
theorem C6_notifier_counterexample :
    (notify_subscribers [⟨7, true⟩] (fun _ => true)).delivered = 1 ∧
    ¬ (notify_subscribers [⟨7, true⟩] (fun _ => true)).retval =
        some (notify_subscribers [⟨7, true⟩] (fun _ => true)).delivered := by decide

/-- C6 (amended).  The notifier reads the enabled subscribers from the
store, attempts exactly one delivery per subscriber in order (a failed
delivery is swallowed and does not abort the remaining fan-out), counts
and logs the successful deliveries, and returns no value. -/
theorem C6_notifier_contract :
    ∀ (users : List UserRow) (send_ok : Int → Bool),
      (notify_subscribers users send_ok).attempts =
        (users.filter (fun u => u.notification_enabled)).map (fun u => u.telegram_id) ∧
      (notify_subscribers users send_ok).delivered =
        ((users.filter (fun u => u.notification_enabled)).filter
          (fun u => send_ok u.telegram_id)).length ∧
      (notify_subscribers users send_ok).retval = none := by
  intro users send_ok
  unfold notify_subscribers
  dsimp only
  rw [notify_foldl]
  exact ⟨by simp, by simp, rfl⟩

@[simp] theorem except_bind_ok {ε α β : Type} (a : α) (f : α → Except ε β) :
    (Except.ok a : Except ε α) >>= f = f a := rfl

@[simp] theorem except_bind_error {ε α β : Type} (e : ε) (f : α → Except ε β) :
    (Except.error e : Except ε α) >>= f = .error e := rfl

theorem processScheduleSlot_nondigit {subjects teachers rooms : JVal} {cid k : String}
    {sd : JVal} (h : pyIsDigit k = false) :
    processScheduleSlot subjects teachers rooms cid k sd = .ok none := by
  simp [processScheduleSlot, h]

/-- Every successful slot decode carries exactly the day and lesson
number encoded by the key: `day = int(k) // 100 - 1`,
`number = int(k) % 100`. -/
theorem processScheduleSlot_spec {subjects teachers rooms : JVal} {cid k : String}
    {sd : JVal} {l : LessonRaw} (hk : pyIsDigit k = true)
    (h : processScheduleSlot subjects teachers rooms cid k sd = .ok (some l)) :
    l.class_id = cid ∧
    l.day = ((digitsToNat k.toList / 100 : Nat) : Int) - 1 ∧
    l.number = digitsToNat k.toList % 100 := by
  unfold processScheduleSlot at h
  rw [hk] at h
  dsimp only [Bool.not_true, Bool.false_eq_true, if_false] at h
  cases h1 : pyGet sd "s" (.arr []) with
  | error e => rw [h1, except_bind_error] at h; exact Except.noConfusion h
  | ok sub_ids =>
    rw [h1, except_bind_ok] at h
    cases h2 : pyGet sd "t" (.arr []) with
    | error e => rw [h2, except_bind_error] at h; exact Except.noConfusion h
    | ok teach_ids =>
      rw [h2, except_bind_ok] at h
      cases h3 : pyGet sd "r" (.arr []) with
      | error e => rw [h3, except_bind_error] at h; exact Except.noConfusion h
      | ok room_ids =>
        rw [h3, except_bind_ok] at h
        cases h4 : get_names sub_ids subjects with
        | error e => rw [h4, except_bind_error] at h; exact Except.noConfusion h
        | ok subj =>
          rw [h4, except_bind_ok] at h
          cases h5 : get_names teach_ids teachers with
          | error e => rw [h5, except_bind_error] at h; exact Except.noConfusion h
          | ok teach =>
            rw [h5, except_bind_ok] at h
            cases h6 : get_names room_ids rooms with
            | error e => rw [h6, except_bind_error] at h; exact Except.noConfusion h
            | ok room =>
              rw [h6, except_bind_ok] at h
              have := Except.ok.inj h
              have hl := Option.some.inj this
              rw [← hl]
              exact ⟨rfl, rfl, rfl⟩

/-- C8.  Slot-key decoding: a non-digit slot key is skipped; a digit
key `k` decodes to `dayOfWeek = int(k) // 100 - 1` and
`lessonNumber = int(k) % 100`; in particular `"101"` gives Monday
lesson 1 and `"512"` gives Friday lesson 12. -/
theorem C8_slot_key_decoding :
    (∀ (subjects teachers rooms : JVal) (cid k : String) (sd : JVal),
       pyIsDigit k = false →
       processScheduleSlot subjects teachers rooms cid k sd = .ok none) ∧
    (∀ (subjects teachers rooms : JVal) (cid k : String) (sd : JVal) (l : LessonRaw),
       pyIsDigit k = true →
       processScheduleSlot subjects teachers rooms cid k sd = .ok (some l) →
       l.day = ((digitsToNat k.toList / 100 : Nat) : Int) - 1 ∧
       l.number = digitsToNat k.toList % 100) ∧
    normalize_schedule [("CLASS_SCHEDULE", .obj [("60", .obj [("c", .obj
        [("101", .obj []), ("512", .obj []), ("abc", .obj [])])])])] =
      .ok [⟨"c", 0, 1, "", "", ""⟩, ⟨"c", 4, 12, "", "", ""⟩] :=
  ⟨fun _ _ _ _ _ _ h => processScheduleSlot_nondigit h,
   fun _ _ _ _ _ _ _ hk h => (processScheduleSlot_spec hk h).2,
   by decide⟩

/-- Concrete instance of C8: key `"512"` decodes to Friday (4), lesson
12, and the non-digit key `"abc"` is skipped. -/
theorem C8_slot_key_decoding_witness :
    processScheduleSlot (.obj []) (.obj []) (.obj []) "c" "abc" (.obj []) = .ok none ∧
    ((⟨"c", 4, 12, "", "", ""⟩ : LessonRaw).day =
        ((digitsToNat "512".toList / 100 : Nat) : Int) - 1 ∧
     (⟨"c", 4, 12, "", "", ""⟩ : LessonRaw).number = digitsToNat "512".toList % 100) :=
  ⟨C8_slot_key_decoding.1 (.obj []) (.obj []) (.obj []) "c" "abc" (.obj []) (by decide),
   C8_slot_key_decoding.2.1 (.obj []) (.obj []) (.obj []) "c" "512" (.obj [])
     ⟨"c", 4, 12, "", "", ""⟩ (by decide) (by decide)⟩

/-- C7.  Cancellation sentinel: whenever the `s` field of a processed
substitution slot is literally the string `"F"`, the emitted record is
cancelled with null subject, teacher and room, whatever else the slot
data contains. -/
theorem C7_cancellation_sentinel :
    (∀ (subjects teachers rooms : JVal) (cid date k : String) (sd : List (String × JVal)),
       pyIsDigit k = true →
       List.lookup "s" sd = some (.str "F") →
       processSubSlot subjects teachers rooms cid date k (.obj sd) =
         .ok (some { class_id := cid, date := date, lesson_number := digitsToNat k.toList,
                     subject_name := none, teacher_name := none, room_number := none,
                     is_cancelled := true })) ∧
    normalize_substitutions [("CLASS_EXCHANGE", .obj [("9", .obj [("20.01.2026", .obj
        [("3", .obj [("s", .str "F"), ("t", .arr [.str "044"]), ("r", .arr [.str "101"])])])])]),
      ("TEACHERS", .obj [("044", .str "Ivanova")])] =
      .ok [{ class_id := "9", date := "20.01.2026", lesson_number := 3, subject_name := none,
             teacher_name := none, room_number := none, is_cancelled := true }] := by
  constructor
  · intro subjects teachers rooms cid date k sd hk hs
    unfold processSubSlot
    rw [hk]
    dsimp only [Bool.not_true, Bool.false_eq_true, if_false]
    rw [pyGet, hs]
    rw [except_bind_ok]
    rfl
  · decide

/-- Concrete instance of C7: the sentinel wins over populated teacher
and room fields. -/
theorem C7_cancellation_sentinel_witness :
    processSubSlot (.obj []) (.obj [("044", .str "Ivanova")]) (.obj []) "9" "20.01.2026" "3"
        (.obj [("s", .str "F"), ("t", .arr [.str "044"]), ("r", .arr [.str "101"])]) =
      .ok (some { class_id := "9", date := "20.01.2026", lesson_number := digitsToNat "3".toList,
                  subject_name := none, teacher_name := none, room_number := none,
                  is_cancelled := true }) :=
  C7_cancellation_sentinel.1 (.obj []) (.obj [("044", .str "Ivanova")]) (.obj [])
    "9" "20.01.2026" "3" [("s", .str "F"), ("t", .arr [.str "044"]), ("r", .arr [.str "101"])]
    (by decide) (by decide)

theorem nameStep_str (lkv : List (String × JVal)) (acc : List String) (i : String) :
    nameStep (.obj lkv) acc (.str i) = if i = "" then .ok acc
      else .ok (acc ++ [pyStr ((List.lookup i lkv).getD (.str i))]) := by
  unfold nameStep
  by_cases h : i = ""
  · subst h
    simp [JVal.truthy, JVal.falsy]
    rfl
  · rw [if_neg h]
    have hbeq : (i == "") = false := beq_false_of_ne h
    simp only [JVal.truthy, JVal.falsy, hbeq, Bool.not_false, if_true, pyLookupRef]
    rfl

theorem foldNames_key (lkv : List (String × JVal))
    (f : List String → JVal → Except PyErr (List String))
    (hf : ∀ acc i, f acc (.str i) = if i = "" then .ok acc
        else .ok (acc ++ [pyStr ((List.lookup i lkv).getD (.str i))])) :
    ∀ (ids : List String) (acc : List String),
      (ids.map JVal.str).foldlM f acc =
        .ok (acc ++ (ids.filter (fun i => i ≠ "")).map
          (fun i => pyStr ((List.lookup i lkv).getD (.str i)))) := by
  intro ids
  induction ids with
  | nil =>
    intro acc
    simp [List.foldlM_nil]
    rfl
  | cons i ids ih =>
    intro acc
    rw [List.map_cons, List.foldlM_cons, hf]
    by_cases h : i = ""
    · rw [if_pos h]
      dsimp only [except_bind_ok]
      rw [ih]
      simp [h]
    · rw [if_neg h]
      dsimp only [except_bind_ok]
      rw [ih]
      simp [h, List.filter_cons]

theorem get_names_arr_str (lkv : List (String × JVal)) (ids : List String) :
    get_names (.arr (ids.map .str)) (.obj lkv) =
      .ok (String.intercalate ", " ((ids.filter (fun i => i ≠ "")).map
        (fun i => pyStr ((List.lookup i lkv).getD (.str i))))) := by
  unfold get_names
  rw [show pyIterElems (.arr (ids.map .str)) = .ok (ids.map .str) from rfl]
  rw [except_bind_ok]
  rw [foldNames_key lkv _ (nameStep_str lkv) ids []]
  rw [except_bind_ok, List.nil_append]
  rfl

theorem get_names_subs_arr_str (lkv : List (String × JVal)) (ids : List String) :
    get_names_subs (.arr (ids.map .str)) (.obj lkv) =
      .ok (String.intercalate ", " ((ids.filter (fun i => i ≠ "")).map
        (fun i => pyStr ((List.lookup i lkv).getD (.str i))))) := by
  unfold get_names_subs
  dsimp only
  rw [foldNames_key lkv _ (nameStep_str lkv) ids []]
  rw [except_bind_ok, List.nil_append]
  rfl

/-- C10.  Unknown-reference fallback, in both the lesson and the
substitution name resolver: each non-empty reference id joins the
`", "`-separated label as its looked-up name when the table knows it
and as the raw id string itself when it does not; empty (falsy) ids are
skipped; no id is an error. -/
theorem C10_unknown_reference_fallback :
    (∀ (ids : List String) (lkv : List (String × JVal)),
       get_names (.arr (ids.map .str)) (.obj lkv) =
         .ok (String.intercalate ", " ((ids.filter (fun i => i ≠ "")).map
           (fun i => pyStr ((List.lookup i lkv).getD (.str i)))))) ∧
    (∀ (ids : List String) (lkv : List (String × JVal)),
       get_names_subs (.arr (ids.map .str)) (.obj lkv) =
         .ok (String.intercalate ", " ((ids.filter (fun i => i ≠ "")).map
           (fun i => pyStr ((List.lookup i lkv).getD (.str i)))))) ∧
    (∀ (i : String) (lkv : List (String × JVal)), i ≠ "" → List.lookup i lkv = none →
       get_names (.arr [.str i]) (.obj lkv) = .ok i ∧
       get_names_subs (.arr [.str i]) (.obj lkv) = .ok i) := by
  refine ⟨fun ids lkv => get_names_arr_str lkv ids,
    fun ids lkv => get_names_subs_arr_str lkv ids, ?_⟩
  intro i lkv hne hnone
  have h1 := get_names_arr_str lkv [i]
  have h2 := get_names_subs_arr_str lkv [i]
  rw [show [i].filter (fun j => j ≠ "") = [i] from by simp [hne]] at h1 h2
  simp only [List.map_cons, List.map_nil] at h1 h2
  rw [hnone] at h1 h2
  simp only [Option.getD_none] at h1 h2
  rw [show pyStr (JVal.str i) = i from rfl] at h1 h2
  rw [show String.intercalate ", " [i] = i from rfl] at h1 h2
  exact ⟨h1, h2⟩

/-- Concrete instance of C10: id `"77"` is absent from the table and
renders as itself next to a resolved id; the empty id is skipped. -/
theorem C10_unknown_reference_fallback_witness :
    get_names (.arr [.str "036", .str "", .str "77"]) (.obj [("036", .str "Math")]) =
      .ok "Math, 77" ∧
    get_names_subs (.arr [.str "77"]) (.obj [("036", .str "Math")]) = .ok "77" :=
  ⟨by decide,
   (C10_unknown_reference_fallback.2.2 "77" [("036", .str "Math")] (by decide) (by decide)).2⟩

theorem foldlM_preserve {ε α β : Type} (f : β → α → Except ε β) (P : β → Prop) :
    ∀ (l : List α), (∀ acc a, a ∈ l → P acc → ∀ r, f acc a = .ok r → P r) →
    ∀ acc, P acc → ∀ res, l.foldlM f acc = .ok res → P res := by
  intro l
  induction l with
  | nil =>
    intro _ acc hacc res h
    rw [List.foldlM_nil, show (pure acc : Except ε β) = .ok acc from rfl] at h
    cases h
    exact hacc
  | cons a l ih =>
    intro hstep acc hacc res h
    rw [List.foldlM_cons] at h
    cases hf : f acc a with
    | error e =>
      rw [hf, except_bind_error] at h
      exact Except.noConfusion h
    | ok acc2 =>
      rw [hf, except_bind_ok] at h
      exact ih (fun b x hx => hstep b x (List.mem_cons_of_mem a hx)) acc2
        (hstep acc a (List.mem_cons_self a l) hacc acc2 hf) res h

/-- The key range under which the slot decoding lands in the documented
bounds: `100 ≤ int(k) ≤ 799` (day 0..6) and `int(k) % 100 ≥ 1`. -/
def slotKeyInRange (k : String) : Bool :=
  !(pyIsDigit k) ||
    (decide (100 ≤ digitsToNat k.toList) && decide (digitsToNat k.toList ≤ 799) &&
     decide (1 ≤ digitsToNat k.toList % 100))

/-- All digit slot keys actually traversed by `normalize_schedule`
(those of the first period's per-class maps) are in range. -/
def slotKeysBounded (raw : List (String × JVal)) : Bool :=
  match List.lookup "CLASS_SCHEDULE" raw with
  | none => true
  | some sp =>
    sp.falsy ||
    match sp with
    | .obj ((_, .obj classes) :: _) =>
      classes.all (fun ckv =>
        match ckv.2 with
        | .obj slots => slots.all (fun skv => slotKeyInRange skv.1)
        | _ => true)
    | _ => true

/-- The original C5 fails on the code: the decoder imposes no range
check, so the digit key `"5"` yields `dayOfWeek = -1` and the digit key
`"200"` yields `lessonNumber = 0`. -/
theorem C5_lesson_range_counterexample :
    normalize_schedule [("CLASS_SCHEDULE", .obj [("60", .obj [("c", .obj
        [("5", .obj []), ("200", .obj [])])])])] =
      .ok [⟨"c", -1, 5, "", "", ""⟩, ⟨"c", 1, 0, "", "", ""⟩] ∧
    ¬ (0 ≤ (⟨"c", -1, 5, "", "", ""⟩ : LessonRaw).day) ∧
    ¬ (1 ≤ (⟨"c", 1, 0, "", "", ""⟩ : LessonRaw).number) := by decide

/-- C5 (amended).  Every lesson record produced from a payload whose
traversed digit slot keys k satisfy `100 ≤ int(k) ≤ 799` and
`int(k) % 100 ≥ 1` — the encoding `DNN` of days 1-7 and a positive
lesson number, which is the only shape the source emits — has
`dayOfWeek` in 0..6 and a positive `lessonNumber`. -/
theorem C5_lesson_range_amended :
    ∀ (raw : List (String × JVal)) (ls : List LessonRaw),
      normalize_schedule raw = .ok ls → slotKeysBounded raw = true →
      ∀ l ∈ ls, 0 ≤ l.day ∧ l.day ≤ 6 ∧ 1 ≤ l.number := by
  intro raw ls h hb
  unfold normalize_schedule at h
  unfold slotKeysBounded at hb
  cases hcs : List.lookup "CLASS_SCHEDULE" raw with
  | none =>
    rw [hcs] at h
    dsimp only at h
    cases h
    intro l hl
    exact absurd hl (List.not_mem_nil l)
  | some sp =>
    rw [hcs] at h hb
    dsimp only at h hb
    by_cases hfal : sp.falsy
    · rw [if_pos hfal] at h
      cases h
      intro l hl
      exact absurd hl (List.not_mem_nil l)
    · rw [if_neg hfal] at h
      rw [show sp.falsy = false from by simpa using hfal, Bool.false_or] at hb
      cases sp with
      | null => exact absurd rfl hfal
      | bool b =>
        rw [show pyKeys (.bool b) = .error "AttributeError: keys" from rfl,
          except_bind_error] at h
        exact Except.noConfusion h
      | num n =>
        rw [show pyKeys (.num n) = .error "AttributeError: keys" from rfl,
          except_bind_error] at h
        exact Except.noConfusion h
      | str t =>
        rw [show pyKeys (.str t) = .error "AttributeError: keys" from rfl,
          except_bind_error] at h
        exact Except.noConfusion h
      | arr xs =>
        rw [show pyKeys (.arr xs) = .error "AttributeError: keys" from rfl,
          except_bind_error] at h
        exact Except.noConfusion h
      | obj kvs =>
        rw [show pyKeys (.obj kvs) = .ok (kvs.map Prod.fst) from rfl, except_bind_ok] at h
        cases kvs with
        | nil => exact absurd rfl hfal
        | cons kv rest =>
          obtain ⟨k0, v0⟩ := kv
          dsimp only [List.map_cons] at h
          rw [show pySubscript (.obj ((k0, v0) :: rest)) k0 = .ok v0 from by
            simp [pySubscript, List.lookup_cons], except_bind_ok] at h
          cases v0 with
          | null =>
            rw [show pyItems .null = .error "AttributeError: items" from rfl,
              except_bind_error] at h
            exact Except.noConfusion h
          | bool b =>
            rw [show pyItems (.bool b) = .error "AttributeError: items" from rfl,
              except_bind_error] at h
            exact Except.noConfusion h
          | num n =>
            rw [show pyItems (.num n) = .error "AttributeError: items" from rfl,
              except_bind_error] at h
            exact Except.noConfusion h
          | str t =>
            rw [show pyItems (.str t) = .error "AttributeError: items" from rfl,
              except_bind_error] at h
            exact Except.noConfusion h
          | arr xs =>
            rw [show pyItems (.arr xs) = .error "AttributeError: items" from rfl,
              except_bind_error] at h
            exact Except.noConfusion h
          | obj classes =>
            rw [show pyItems (.obj classes) = .ok classes from rfl, except_bind_ok] at h
            dsimp only at hb
            have hball := List.all_eq_true.mp hb
            refine foldlM_preserve _ (fun acc => ∀ l ∈ acc, 0 ≤ l.day ∧ l.day ≤ 6 ∧ 1 ≤ l.number)
              classes ?_ [] (fun l hl => absurd hl (List.not_mem_nil l)) ls h
            intro acc ckv hck hacc r hr
            have hclass := hball ckv hck
            cases hcv : ckv.2 with
            | obj slots =>
              rw [hcv] at hr hclass
              dsimp only at hr hclass
              have hslots := List.all_eq_true.mp hclass
              refine foldlM_preserve _
                (fun acc => ∀ l ∈ acc, 0 ≤ l.day ∧ l.day ≤ 6 ∧ 1 ≤ l.number)
                slots ?_ acc hacc r hr
              intro acc2 skv hskv hacc2 r2 hr2
              cases hps : processScheduleSlot ((List.lookup "SUBJECTS" raw).getD (.obj []))
                  ((List.lookup "TEACHERS" raw).getD (.obj []))
                  ((List.lookup "ROOMS" raw).getD (.obj [])) ckv.1 skv.1 skv.2 with
              | error e =>
                rw [hps, except_bind_error] at hr2
                exact Except.noConfusion hr2
              | ok rr =>
                rw [hps, except_bind_ok] at hr2
                cases rr with
                | none =>
                  dsimp only at hr2
                  rw [show (pure acc2 : Except PyErr (List LessonRaw)) = .ok acc2 from rfl] at hr2
                  cases hr2
                  exact hacc2
                | some l =>
                  dsimp only at hr2
                  rw [show (pure (acc2 ++ [l]) : Except PyErr (List LessonRaw)) =
                    .ok (acc2 ++ [l]) from rfl] at hr2
                  cases hr2
                  intro x hx
                  rcases List.mem_append.mp hx with hx1 | hx1
                  · exact hacc2 x hx1
                  · have hxl : x = l := List.mem_singleton.mp hx1
                    subst hxl
                    cases hd : pyIsDigit skv.1 with
                    | false =>
                      rw [processScheduleSlot_nondigit hd] at hps
                      exact Option.noConfusion (Except.ok.inj hps)
                    | true =>
                      obtain ⟨-, hday, hnum⟩ := processScheduleSlot_spec hd hps
                      have hrange := hslots skv hskv
                      rw [slotKeyInRange, hd] at hrange
                      simp only [Bool.not_true, Bool.false_or, Bool.and_eq_true,
                        decide_eq_true_eq] at hrange
                      rw [hday, hnum]
                      obtain ⟨⟨hr1, hr2'⟩, hr3⟩ := hrange
                      refine ⟨?_, ?_, hr3⟩ <;> omega
            | null =>
              rw [hcv] at hr
              dsimp only at hr
              rw [show (pure acc : Except PyErr (List LessonRaw)) = .ok acc from rfl] at hr
              cases hr
              exact hacc
            | bool b =>
              rw [hcv] at hr
              dsimp only at hr
              rw [show (pure acc : Except PyErr (List LessonRaw)) = .ok acc from rfl] at hr
              cases hr
              exact hacc
            | num n =>
              rw [hcv] at hr
              dsimp only at hr
              rw [show (pure acc : Except PyErr (List LessonRaw)) = .ok acc from rfl] at hr
              cases hr
              exact hacc
            | str t =>
              rw [hcv] at hr
              dsimp only at hr
              rw [show (pure acc : Except PyErr (List LessonRaw)) = .ok acc from rfl] at hr
              cases hr
              exact hacc
            | arr xs =>
              rw [hcv] at hr
              dsimp only at hr
              rw [show (pure acc : Except PyErr (List LessonRaw)) = .ok acc from rfl] at hr
              cases hr
              exact hacc

/-- Concrete instance of the amended C5: a payload with keys `"101"`
and `"512"` satisfies the bound condition and every produced record is
in range. -/
theorem C5_lesson_range_amended_witness :
    0 ≤ (⟨"c", 4, 12, "", "", ""⟩ : LessonRaw).day ∧
    (⟨"c", 4, 12, "", "", ""⟩ : LessonRaw).day ≤ 6 ∧
    1 ≤ (⟨"c", 4, 12, "", "", ""⟩ : LessonRaw).number :=
  C5_lesson_range_amended
    [("CLASS_SCHEDULE", .obj [("60", .obj [("c", .obj [("101", .obj []), ("512", .obj [])])])])]
    [⟨"c", 0, 1, "", "", ""⟩, ⟨"c", 4, 12, "", "", ""⟩] (by decide) (by decide)
    ⟨"c", 4, 12, "", "", ""⟩ (by decide)

/-- Values that Python can hash and that are not containers: the
reference ids a slot may carry without tripping the resolver. -/
def scalarOK : JVal → Bool
  | .arr _ => false
  | .obj _ => false
  | _ => true

/-- Reference values the schedule resolver iterates without error:
lists of scalars, strings (iterated per character), dicts (iterated
over keys). -/
def idsOK : JVal → Bool
  | .arr xs => xs.all scalarOK
  | .str _ => true
  | .obj _ => true
  | _ => false

/-- A lookup-table section that is absent or a map. -/
def tableOK (raw : List (String × JVal)) (k : String) : Bool :=
  match List.lookup k raw with
  | none => true
  | some (.obj _) => true
  | some _ => false

def tablesOK (raw : List (String × JVal)) : Bool :=
  tableOK raw "SUBJECTS" && tableOK raw "TEACHERS" && tableOK raw "ROOMS"

def slotDataOK : JVal → Bool
  | .obj kvs =>
    idsOK ((List.lookup "s" kvs).getD (.arr [])) &&
    idsOK ((List.lookup "t" kvs).getD (.arr [])) &&
    idsOK ((List.lookup "r" kvs).getD (.arr []))
  | _ => false

def scheduleSectionOK (raw : List (String × JVal)) : Bool :=
  match List.lookup "CLASS_SCHEDULE" raw with
  | none => true
  | some sp =>
    sp.falsy ||
    match sp with
    | .obj ((_, .obj classes) :: _) =>
      classes.all (fun ckv =>
        match ckv.2 with
        | .obj slots => slots.all (fun skv => !(pyIsDigit skv.1) || slotDataOK skv.2)
        | _ => true)
    | _ => false

/-- Reference values the substitution resolver accepts: lists of
scalars, or a single scalar (the malformed single-value fallback). -/
def subIdsOK : JVal → Bool
  | .arr xs => xs.all scalarOK
  | .obj _ => false
  | _ => true

def subSlotDataOK : JVal → Bool
  | .obj kvs =>
    isTokenF ((List.lookup "s" kvs).getD (.arr [])) ||
    (subIdsOK ((List.lookup "s" kvs).getD (.arr [])) &&
     subIdsOK ((List.lookup "t" kvs).getD (.arr [])) &&
     subIdsOK ((List.lookup "r" kvs).getD (.arr [])))
  | _ => false

def exchangeSectionOK (raw : List (String × JVal)) : Bool :=
  match List.lookup "CLASS_EXCHANGE" raw with
  | none => true
  | some (.obj classes) =>
    classes.all (fun ckv =>
      match ckv.2 with
      | .obj dates =>
        dates.all (fun dkv =>
          match dkv.2 with
          | .obj slots => slots.all (fun skv => !(pyIsDigit skv.1) || subSlotDataOK skv.2)
          | _ => false)
      | _ => true)
  | some _ => false

theorem foldlM_ok {ε α β : Type} (f : β → α → Except ε β) :
    ∀ (l : List α), (∀ acc a, a ∈ l → ∃ r, f acc a = .ok r) →
    ∀ acc, ∃ res, l.foldlM f acc = .ok res := by
  intro l
  induction l with
  | nil => intro _ acc; exact ⟨acc, by rw [List.foldlM_nil]; rfl⟩
  | cons a l ih =>
    intro hstep acc
    obtain ⟨r, hr⟩ := hstep acc a (List.mem_cons_self a l)
    obtain ⟨res, hres⟩ := ih (fun b x hx => hstep b x (List.mem_cons_of_mem a hx)) r
    exact ⟨res, by rw [List.foldlM_cons, hr, except_bind_ok, hres]⟩

theorem pyIterElems_scalars {ids : JVal} (h : idsOK ids = true) :
    ∃ elems, pyIterElems ids = .ok elems ∧ ∀ e ∈ elems, scalarOK e = true := by
  cases ids with
  | arr xs => exact ⟨xs, rfl, List.all_eq_true.mp h⟩
  | str s =>
    refine ⟨s.toList.map (fun c => .str (String.mk [c])), rfl, ?_⟩
    intro e he
    obtain ⟨c, _, hc⟩ := List.mem_map.mp he
    rw [← hc]
    rfl
  | obj kvs =>
    refine ⟨_, rfl, ?_⟩
    intro e he
    obtain ⟨kv, _, hkv⟩ := List.mem_map.mp he
    rw [← hkv]
    rfl
  | null => exact absurd h (by simp [idsOK])
  | bool b => exact absurd h (by simp [idsOK])
  | num n => exact absurd h (by simp [idsOK])

theorem pyLookupRef_ok (lkv : List (String × JVal)) {i : JVal} (h : scalarOK i = true) :
    ∃ v, pyLookupRef (.obj lkv) i = .ok v := by
  cases i with
  | arr xs => exact absurd h (by simp [scalarOK])
  | obj kvs => exact absurd h (by simp [scalarOK])
  | str s => exact ⟨_, rfl⟩
  | null => exact ⟨_, rfl⟩
  | bool b => exact ⟨_, rfl⟩
  | num n => exact ⟨_, rfl⟩

theorem nameStep_ok (lkv : List (String × JVal)) (acc : List String) {i : JVal}
    (h : scalarOK i = true) : ∃ r, nameStep (.obj lkv) acc i = .ok r := by
  unfold nameStep
  cases ht : JVal.truthy i with
  | false =>
    refine ⟨acc, ?_⟩
    rw [if_neg (by simp)]
    rfl
  | true =>
    obtain ⟨v, hv⟩ := pyLookupRef_ok lkv h
    refine ⟨acc ++ [pyStr v], ?_⟩
    rw [if_pos rfl, hv, except_bind_ok]
    rfl

theorem get_names_ok (lkv : List (String × JVal)) {ids : JVal} (h : idsOK ids = true) :
    ∃ r, get_names ids (.obj lkv) = .ok r := by
  obtain ⟨elems, he, hsc⟩ := pyIterElems_scalars h
  unfold get_names
  rw [he, except_bind_ok]
  obtain ⟨res, hres⟩ := foldlM_ok (nameStep (.obj lkv)) elems
    (fun acc a ha => nameStep_ok lkv acc (hsc a ha)) ([] : List String)
  rw [hres, except_bind_ok]
  exact ⟨_, rfl⟩

theorem get_names_subs_ok (lkv : List (String × JVal)) {ids : JVal}
    (h : subIdsOK ids = true) : ∃ r, get_names_subs ids (.obj lkv) = .ok r := by
  cases ids with
  | arr xs =>
    unfold get_names_subs
    dsimp only
    obtain ⟨res, hres⟩ := foldlM_ok (nameStep (.obj lkv)) xs
      (fun acc a ha => nameStep_ok lkv acc (List.all_eq_true.mp (by simpa [subIdsOK] using h) a ha))
      ([] : List String)
    rw [hres, except_bind_ok]
    exact ⟨_, rfl⟩
  | obj kvs => exact absurd h (by simp [subIdsOK])
  | str s => exact ⟨_, rfl⟩
  | null => exact ⟨_, rfl⟩
  | bool b => exact ⟨_, rfl⟩
  | num n => exact ⟨_, rfl⟩

theorem tableOK_obj {raw : List (String × JVal)} {k : String} (h : tableOK raw k = true) :
    ∃ lkv, (List.lookup k raw).getD (.obj []) = .obj lkv := by
  unfold tableOK at h
  cases hl : List.lookup k raw with
  | none => exact ⟨[], rfl⟩
  | some v =>
    rw [hl] at h
    cases v with
    | obj kvs => exact ⟨kvs, rfl⟩
    | null => simp at h
    | bool b => simp at h
    | num n => simp at h
    | str t => simp at h
    | arr xs => simp at h

theorem processScheduleSlot_ok (lkvS lkvT lkvR : List (String × JVal)) (cid k : String)
    {sd : JVal} (hsd : pyIsDigit k = true → slotDataOK sd = true) :
    ∃ r, processScheduleSlot (.obj lkvS) (.obj lkvT) (.obj lkvR) cid k sd = .ok r := by
  cases hd : pyIsDigit k with
  | false => exact ⟨none, processScheduleSlot_nondigit hd⟩
  | true =>
    have hs := hsd hd
    cases sd with
    | obj kvs =>
      unfold processScheduleSlot
      rw [hd]
      dsimp only [Bool.not_true, Bool.false_eq_true, if_false]
      unfold slotDataOK at hs
      simp only [Bool.and_eq_true] at hs
      obtain ⟨⟨hs1, hs2⟩, hs3⟩ := hs
      rw [show pyGet (.obj kvs) "s" (.arr []) =
        .ok ((List.lookup "s" kvs).getD (.arr [])) from rfl, except_bind_ok]
      rw [show pyGet (.obj kvs) "t" (.arr []) =
        .ok ((List.lookup "t" kvs).getD (.arr [])) from rfl, except_bind_ok]
      rw [show pyGet (.obj kvs) "r" (.arr []) =
        .ok ((List.lookup "r" kvs).getD (.arr [])) from rfl, except_bind_ok]
      obtain ⟨n1, h1⟩ := get_names_ok lkvS hs1
      obtain ⟨n2, h2⟩ := get_names_ok lkvT hs2
      obtain ⟨n3, h3⟩ := get_names_ok lkvR hs3
      rw [h1, except_bind_ok, h2, except_bind_ok, h3, except_bind_ok]
      exact ⟨_, rfl⟩
    | null => exact absurd hs (by simp [slotDataOK])
    | bool b => exact absurd hs (by simp [slotDataOK])
    | num n => exact absurd hs (by simp [slotDataOK])
    | str t => exact absurd hs (by simp [slotDataOK])
    | arr xs => exact absurd hs (by simp [slotDataOK])

theorem normalize_classes_ok {raw : List (String × JVal)}
    (h : tableOK raw "CLASSES" = true) : ∃ v, normalize_classes raw = .ok v := by
  unfold normalize_classes
  unfold tableOK at h
  cases hl : List.lookup "CLASSES" raw with
  | none => exact ⟨[], rfl⟩
  | some cm =>
    rw [hl] at h
    cases cm with
    | obj kvs =>
      dsimp only
      rw [show pyItems (.obj kvs) = .ok kvs from rfl, except_bind_ok]
      exact ⟨_, rfl⟩
    | null => simp at h
    | bool b => simp at h
    | num n => simp at h
    | str t => simp at h
    | arr xs => simp at h

theorem normalize_teachers_ok {raw : List (String × JVal)}
    (h : tableOK raw "TEACHERS" = true) : ∃ v, normalize_teachers raw = .ok v := by
  unfold normalize_teachers
  unfold tableOK at h
  cases hl : List.lookup "TEACHERS" raw with
  | none => exact ⟨[], rfl⟩
  | some tm =>
    rw [hl] at h
    cases tm with
    | obj kvs =>
      dsimp only
      rw [show pyItems (.obj kvs) = .ok kvs from rfl, except_bind_ok]
      exact ⟨_, rfl⟩
    | null => simp at h
    | bool b => simp at h
    | num n => simp at h
    | str t => simp at h
    | arr xs => simp at h

theorem normalize_schedule_ok {raw : List (String × JVal)}
    (h1 : scheduleSectionOK raw = true) (h2 : tablesOK raw = true) :
    ∃ v, normalize_schedule raw = .ok v := by
  unfold tablesOK at h2
  simp only [Bool.and_eq_true] at h2
  obtain ⟨⟨h2S, h2T⟩, h2R⟩ := h2
  obtain ⟨lkvS, hS⟩ := tableOK_obj h2S
  obtain ⟨lkvT, hT⟩ := tableOK_obj h2T
  obtain ⟨lkvR, hR⟩ := tableOK_obj h2R
  unfold normalize_schedule
  unfold scheduleSectionOK at h1
  cases hcs : List.lookup "CLASS_SCHEDULE" raw with
  | none => exact ⟨[], rfl⟩
  | some sp =>
    rw [hcs] at h1
    dsimp only at h1
    simp only [hS, hT, hR]
    by_cases hfal : sp.falsy
    · rw [if_pos hfal]
      exact ⟨[], rfl⟩
    · rw [if_neg hfal]
      rw [show sp.falsy = false from by simpa using hfal, Bool.false_or] at h1
      cases sp with
      | null => exact absurd rfl hfal
      | bool b => simp at h1
      | num n => simp at h1
      | str t => simp at h1
      | arr xs => simp at h1
      | obj kvs =>
        cases kvs with
        | nil => exact absurd rfl hfal
        | cons kv rest =>
          obtain ⟨k0, v0⟩ := kv
          cases v0 with
          | null => simp at h1
          | bool b => simp at h1
          | num n => simp at h1
          | str t => simp at h1
          | arr xs => simp at h1
          | obj classes =>
            rw [show pyKeys (.obj ((k0, JVal.obj classes) :: rest)) =
              .ok (((k0, JVal.obj classes) :: rest).map Prod.fst) from rfl, except_bind_ok]
            dsimp only [List.map_cons]
            rw [show pySubscript (.obj ((k0, JVal.obj classes) :: rest)) k0 =
              .ok (.obj classes) from by simp [pySubscript, List.lookup_cons], except_bind_ok]
            rw [show pyItems (.obj classes) = .ok classes from rfl, except_bind_ok]
            dsimp only at h1
            have hball := List.all_eq_true.mp h1
            refine foldlM_ok _ classes ?_ []
            intro acc ckv hck
            dsimp only
            have hclass := hball ckv hck
            cases hcv : ckv.2 with
            | obj slots =>
              rw [hcv] at hclass
              dsimp only at hclass ⊢
              have hslots := List.all_eq_true.mp hclass
              refine foldlM_ok _ slots ?_ acc
              intro acc2 skv hskv
              dsimp only
              have hcond := hslots skv hskv
              have hsdOK : pyIsDigit skv.1 = true → slotDataOK skv.2 = true := by
                intro hd
                rw [hd] at hcond
                simpa using hcond
              obtain ⟨r, hr⟩ := processScheduleSlot_ok lkvS lkvT lkvR ckv.1 skv.1 hsdOK
              rw [hr, except_bind_ok]
              exact ⟨_, rfl⟩
            | null => exact ⟨acc, rfl⟩
            | bool b => exact ⟨acc, rfl⟩
            | num n => exact ⟨acc, rfl⟩
            | str t => exact ⟨acc, rfl⟩
            | arr xs => exact ⟨acc, rfl⟩

theorem processSubSlot_ok (lkvS lkvT lkvR : List (String × JVal)) (cid date k : String)
    {sd : JVal} (hsd : pyIsDigit k = true → subSlotDataOK sd = true) :
    ∃ r, processSubSlot (.obj lkvS) (.obj lkvT) (.obj lkvR) cid date k sd = .ok r := by
  cases hd : pyIsDigit k with
  | false => exact ⟨none, by simp [processSubSlot, hd]⟩
  | true =>
    have hs := hsd hd
    cases sd with
    | obj kvs =>
      unfold processSubSlot
      rw [hd]
      dsimp only [Bool.not_true, Bool.false_eq_true, if_false]
      rw [show pyGet (.obj kvs) "s" (.arr []) =
        .ok ((List.lookup "s" kvs).getD (.arr [])) from rfl, except_bind_ok]
      unfold subSlotDataOK at hs
      dsimp only at hs
      cases hF : isTokenF ((List.lookup "s" kvs).getD (.arr [])) with
      | true => exact ⟨_, rfl⟩
      | false =>
        rw [hF] at hs
        simp only [Bool.false_or, Bool.and_eq_true] at hs
        obtain ⟨⟨hs1, hs2⟩, hs3⟩ := hs
        rw [show pyGet (.obj kvs) "t" (.arr []) =
          .ok ((List.lookup "t" kvs).getD (.arr [])) from rfl, except_bind_ok]
        rw [show pyGet (.obj kvs) "r" (.arr []) =
          .ok ((List.lookup "r" kvs).getD (.arr [])) from rfl, except_bind_ok]
        obtain ⟨n1, h1⟩ := get_names_subs_ok lkvS hs1
        obtain ⟨n2, h2⟩ := get_names_subs_ok lkvT hs2
        obtain ⟨n3, h3⟩ := get_names_subs_ok lkvR hs3
        rw [h1, except_bind_ok, h2, except_bind_ok, h3, except_bind_ok]
        exact ⟨_, rfl⟩
    | null => exact absurd hs (by simp [subSlotDataOK])
    | bool b => exact absurd hs (by simp [subSlotDataOK])
    | num n => exact absurd hs (by simp [subSlotDataOK])
    | str t => exact absurd hs (by simp [subSlotDataOK])
    | arr xs => exact absurd hs (by simp [subSlotDataOK])

theorem normalize_substitutions_ok {raw : List (String × JVal)}
    (h1 : exchangeSectionOK raw = true) (h2 : tablesOK raw = true) :
    ∃ v, normalize_substitutions raw = .ok v := by
  unfold tablesOK at h2
  simp only [Bool.and_eq_true] at h2
  obtain ⟨⟨h2S, h2T⟩, h2R⟩ := h2
  obtain ⟨lkvS, hS⟩ := tableOK_obj h2S
  obtain ⟨lkvT, hT⟩ := tableOK_obj h2T
  obtain ⟨lkvR, hR⟩ := tableOK_obj h2R
  unfold normalize_substitutions
  unfold exchangeSectionOK at h1
  cases hce : List.lookup "CLASS_EXCHANGE" raw with
  | none => exact ⟨[], rfl⟩
  | some ex =>
    rw [hce] at h1
    cases ex with
    | null => simp at h1
    | bool b => simp at h1
    | num n => simp at h1
    | str t => simp at h1
    | arr xs => simp at h1
    | obj classes =>
      dsimp only
      simp only [hS, hT, hR]
      rw [show pyItems (.obj classes) = .ok classes from rfl, except_bind_ok]
      have hball := List.all_eq_true.mp h1
      refine foldlM_ok _ classes ?_ []
      intro acc ckv hck
      dsimp only
      have hclass := hball ckv hck
      cases hcv : ckv.2 with
      | obj dates =>
        rw [hcv] at hclass
        dsimp only at hclass ⊢
        have hdates := List.all_eq_true.mp hclass
        refine foldlM_ok _ dates ?_ acc
        intro acc2 dkv hdkv
        dsimp only
        have hdate := hdates dkv hdkv
        cases hdv : dkv.2 with
        | obj slots =>
          rw [hdv] at hdate
          dsimp only at hdate ⊢
          rw [show pyItems (.obj slots) = .ok slots from rfl, except_bind_ok]
          have hslots := List.all_eq_true.mp hdate
          refine foldlM_ok _ slots ?_ acc2
          intro acc3 skv hskv
          dsimp only
          have hcond := hslots skv hskv
          have hsdOK : pyIsDigit skv.1 = true → subSlotDataOK skv.2 = true := by
            intro hd
            rw [hd] at hcond
            simpa using hcond
          obtain ⟨r, hr⟩ := processSubSlot_ok lkvS lkvT lkvR ckv.1 dkv.1 skv.1 hsdOK
          rw [hr, except_bind_ok]
          exact ⟨_, rfl⟩
        | null => rw [hdv] at hdate; simp at hdate
        | bool b => rw [hdv] at hdate; simp at hdate
        | num n => rw [hdv] at hdate; simp at hdate
        | str t => rw [hdv] at hdate; simp at hdate
        | arr xs => rw [hdv] at hdate; simp at hdate
      | null => exact ⟨acc, rfl⟩
      | bool b => exact ⟨acc, rfl⟩
      | num n => exact ⟨acc, rfl⟩
      | str t => exact ⟨acc, rfl⟩
      | arr xs => exact ⟨acc, rfl⟩

/-- The original C4 fails on the code: each normalizer calls dict
methods (or iterates) on values of the raw payload without type
checks, so ill-shaped sections raise (AttributeError and similar)
rather than being skipped; nothing is counted. -/
theorem C4_lenient_normalization_counterexample :
    normalize_classes [("CLASSES", .num 5)] = .error "AttributeError: items" ∧
    normalize_teachers [("TEACHERS", .str "x")] = .error "AttributeError: items" ∧
    normalize_schedule [("CLASS_SCHEDULE", .obj [("60", .obj [("c", .obj
        [("101", .str "oops")])])])] = .error "AttributeError: get" ∧
    normalize_substitutions [("CLASS_EXCHANGE", .arr [.num 1])] =
      .error "AttributeError: items" := by decide

/-- C4 (amended).  The normalizers are lenient in a conditional sense:
a missing top-level section yields an empty result, and on payloads
whose traversed values are well-shaped (maps where the code calls map
methods, iterable reference values of hashable elements) they never
raise; malformed entries of the tolerated kinds (non-digit slot keys,
non-map per-class schedules and date maps, falsy reference ids) are
skipped, not raised — but they are not counted, and ill-shaped values
outside these conditions do raise. -/
theorem C4_lenient_normalization_amended :
    ∀ raw : List (String × JVal),
      (List.lookup "CLASSES" raw = none → normalize_classes raw = .ok []) ∧
      (List.lookup "TEACHERS" raw = none → normalize_teachers raw = .ok []) ∧
      (List.lookup "CLASS_SCHEDULE" raw = none → normalize_schedule raw = .ok []) ∧
      (List.lookup "CLASS_EXCHANGE" raw = none → normalize_substitutions raw = .ok []) ∧
      (tableOK raw "CLASSES" = true → ∃ v, normalize_classes raw = .ok v) ∧
      (tableOK raw "TEACHERS" = true → ∃ v, normalize_teachers raw = .ok v) ∧
      (scheduleSectionOK raw = true → tablesOK raw = true →
        ∃ v, normalize_schedule raw = .ok v) ∧
      (exchangeSectionOK raw = true → tablesOK raw = true →
        ∃ v, normalize_substitutions raw = .ok v) := by
  intro raw
  refine ⟨?_, ?_, ?_, ?_, normalize_classes_ok, normalize_teachers_ok,
    normalize_schedule_ok, normalize_substitutions_ok⟩
  · intro h
    unfold normalize_classes
    rw [h]
  · intro h
    unfold normalize_teachers
    rw [h]
  · intro h
    unfold normalize_schedule
    rw [h]
  · intro h
    unfold normalize_substitutions
    rw [h]

/-- Concrete instance of the amended C4: a fully well-shaped payload
(with a malformed non-dict per-class schedule and a non-digit key that
are skipped) normalizes without error in all four normalizers. -/
theorem C4_lenient_normalization_amended_witness :
    (∃ v, normalize_classes [("CLASSES", .obj [("5", .str "10A")]),
      ("CLASS_SCHEDULE", .obj [("60", .obj [("5", .obj [("101",
         .obj [("s", .arr [.str "036"])]), ("abc", .obj [])]), ("junk", .num 3)])]),
      ("CLASS_EXCHANGE", .obj [("5", .obj [("20.01.2026", .obj [("3",
         .obj [("s", .str "F")])])])]),
      ("SUBJECTS", .obj [("036", .str "Math")])] = .ok v) ∧
    (∃ v, normalize_schedule [("CLASSES", .obj [("5", .str "10A")]),
      ("CLASS_SCHEDULE", .obj [("60", .obj [("5", .obj [("101",
         .obj [("s", .arr [.str "036"])]), ("abc", .obj [])]), ("junk", .num 3)])]),
      ("CLASS_EXCHANGE", .obj [("5", .obj [("20.01.2026", .obj [("3",
         .obj [("s", .str "F")])])])]),
      ("SUBJECTS", .obj [("036", .str "Math")])] = .ok v) ∧
    (∃ v, normalize_substitutions [("CLASSES", .obj [("5", .str "10A")]),
      ("CLASS_SCHEDULE", .obj [("60", .obj [("5", .obj [("101",
         .obj [("s", .arr [.str "036"])]), ("abc", .obj [])]), ("junk", .num 3)])]),
      ("CLASS_EXCHANGE", .obj [("5", .obj [("20.01.2026", .obj [("3",
         .obj [("s", .str "F")])])])]),
      ("SUBJECTS", .obj [("036", .str "Math")])] = .ok v) :=
  ⟨(C4_lenient_normalization_amended _).2.2.2.2.1 (by decide),
   (C4_lenient_normalization_amended _).2.2.2.2.2.2.1 (by decide) (by decide),
   (C4_lenient_normalization_amended _).2.2.2.2.2.2.2 (by decide) (by decide)⟩

example : normalize_classes [("CLASSES", .num 5)] = .error "AttributeError: items" := by decide

example : normalize_classes [("CLASSES", .obj [("7", .str "10A")])] =
    .ok [{ id := "7", name := "10A", grade := 10 }] := by decide

example : normalize_schedule
    [("CLASS_SCHEDULE", .obj [("60", .obj [("5", .obj [("101", .obj [("s", .arr [.str "036"]), ("t", .arr []), ("r", .arr [.str "005"])])])])]),
     ("SUBJECTS", .obj [("036", .str "Math")])] =
    .ok [{ class_id := "5", day := 0, number := 1, subject := "Math", teacher := "", room := "005" }] := by decide

example : normalize_schedule
    [("CLASS_SCHEDULE", .obj [("60", .obj [("c", .obj [("5", .obj [])])])])] =
    .ok [{ class_id := "c", day := -1, number := 5, subject := "", teacher := "", room := "" }] := by decide

example : normalize_substitutions
    [("CLASS_EXCHANGE", .obj [("9", .obj [("20.01.2026", .obj [("3", .obj [("s", .str "F"), ("t", .arr [.str "044"])])])])])] =
    .ok [{ class_id := "9", date := "20.01.2026", lesson_number := 3,
           subject_name := none, teacher_name := none, room_number := none, is_cancelled := true }] := by decide

example : normalize_substitutions [("CLASS_EXCHANGE", .arr [])] = .error "AttributeError: items" := by decide
